import Mathlib

/-!
Verification development for the `pinyinize` pipeline: a shallow embedding of
the span splitter, tokenizer, per-character resolver, override engine,
double-check application and output composer, together with theorems checking
the behavioural claims of the specification against this embedding.

Python strings are modelled as `List Char` (one element per code point, which
matches Python's `len`/indexing semantics).  JSON values flowing in from
resources and from the advisory collaborator are modelled by the small `JVal`
type.  External library calls (`re.search` inside rule matching,
`unicodedata.category`) are modelled as function parameters, since they are
collaborator boundaries of the program.
-/

set_option maxRecDepth 10000

namespace PinyinModel

abbrev Str := List Char

/-! ## util.py -/

/-- `util.is_han`: CJK Unified Ideographs plus extensions and compatibility
ideographs, by code-point range. -/
def is_han (c : Char) : Bool :=
  let cp := c.toNat
  (0x3400 ≤ cp && cp ≤ 0x4DBF) ||
  (0x4E00 ≤ cp && cp ≤ 0x9FFF) ||
  (0xF900 ≤ cp && cp ≤ 0xFAFF) ||
  (0x20000 ≤ cp && cp ≤ 0x2A6DF) ||
  (0x2A700 ≤ cp && cp ≤ 0x2B73F) ||
  (0x2B740 ≤ cp && cp ≤ 0x2B81F) ||
  (0x2B820 ≤ cp && cp ≤ 0x2CEAF) ||
  (0x2CEB0 ≤ cp && cp ≤ 0x2EBEF)

/-- `util.is_space` is Python's `str.isspace` on a single character: the
Unicode whitespace code points. -/
def is_space (c : Char) : Bool :=
  let n := c.toNat
  (9 ≤ n && n ≤ 13) || (28 ≤ n && n ≤ 31) || n == 32 ||
  n == 0x85 || n == 0xA0 || n == 0x1680 ||
  (0x2000 ≤ n && n ≤ 0x200A) ||
  n == 0x2028 || n == 0x2029 || n == 0x202F || n == 0x205F || n == 0x3000

/-- `util.is_ascii_letter`. -/
def is_ascii_letter (c : Char) : Bool :=
  let o := c.toNat
  (65 ≤ o && o ≤ 90) || (97 ≤ o && o ≤ 122)

/-- `util.is_ascii_digit`. -/
def is_ascii_digit (c : Char) : Bool :=
  let o := c.toNat
  48 ≤ o && o ≤ 57

/-- `util.normalize_pinyin`: the three single-character `str.replace` calls
(`ɡ`→`g`, `v`→`ü`, `V`→`Ü`); on single characters sequential replacement is a
per-character map (no replacement output is itself replaced later). -/
def normalize_pinyin (s : Str) : Str :=
  s.map fun c =>
    if c = 'ɡ' then 'g'
    else if c = 'v' then 'ü'
    else if c = 'V' then 'Ü'
    else c

/-- `util.normalize_word_pinyin`: drop ASCII space (U+0020) separators, then
normalize. -/
def normalize_word_pinyin (s : Str) : Str :=
  normalize_pinyin (s.filter fun c => c ≠ ' ')

/-! ## types.py -/

inductive SpanType where
  | han
  | protected_
deriving DecidableEq, Repr

inductive ProtectedKind where
  | url
  | latin
  | number
  | space
  | punct
  | symbol
  | other
deriving DecidableEq, Repr

/-- `util.is_word_like_protected_kind`. -/
def is_word_like_protected_kind (k : Option ProtectedKind) : Bool :=
  k == some .url || k == some .latin || k == some .number

/-- `types.Span`.  Python span ids are the strings `"S0"`, `"S1"`, …; the
numeric index is modelled directly. -/
structure Span where
  span_idx : Nat
  type : SpanType
  kind : Option ProtectedKind
  start : Nat
  stop : Nat
  text : Str
deriving DecidableEq, Repr

/-! ## preprocess.py -/

/-- ASCII lowercasing, as `re.IGNORECASE` applies to the literal characters of
the URL pattern (the exotic Unicode case foldings cannot hit `h/t/p/s` here
except via rare compatibility characters, which are outside this model). -/
def lowerAscii (c : Char) : Char :=
  if 65 ≤ c.toNat && c.toNat ≤ 90 then Char.ofNat (c.toNat + 32) else c

/-- Case-insensitive literal prefix test. -/
def matchesCI (pat : Str) (l : Str) : Bool :=
  (l.take pat.length).map lowerAscii == pat

/-- Length of the maximal run of non-whitespace characters at the front
(the greedy `[^\s]+`, which matches to the end of the run). -/
def nonSpaceRun (l : Str) : Nat :=
  (l.takeWhile fun c => !is_space c).length

/-- One attempt of the URL regex after the `http` prefix and an optional `s`
of length `k - 4`: require the literal `://` at offset `k` from `i`, then a
non-empty greedy run of non-whitespace. -/
def urlTryAt (text : Str) (i k : Nat) : Option Nat :=
  if ((text.drop i).drop k).take 3 == [':', '/', '/'] then
    if nonSpaceRun ((text.drop i).drop (k + 3)) > 0 then
      some (i + k + 3 + nonSpaceRun ((text.drop i).drop (k + 3)))
    else none
  else none

/-- Whether the greedy optional `s` matches (a character at offset 4 that
case-folds to `s`). -/
def urlHasS (text : Str) (i : Nat) : Bool :=
  match ((text.drop i).drop 4).head? with
  | some c => lowerAscii c == 's'
  | none => false

/-- `preprocess._URL_RE.match(text, i)`: the regex `https?://[^\s]+` with
`re.IGNORECASE`, anchored at `i`; returns the match end.  The optional `s` is
greedy, with the backtracking attempt at the shorter prefix. -/
def url_match_end (text : Str) (i : Nat) : Option Nat :=
  if matchesCI ['h', 't', 't', 'p'] (text.drop i) then
    if urlHasS text i then
      match urlTryAt text i 5 with
      | some j => some j
      | none => urlTryAt text i 4
    else urlTryAt text i 4
  else none

/-- Length of the maximal run of characters satisfying `p` starting at
position `j` (the `while j < n and p(text[j]): j += 1` loops). -/
def runLen (p : Char → Bool) (text : Str) (j : Nat) : Nat :=
  ((text.drop j).takeWhile p).length

/-- Continuation predicate of a latin run (letters, digits, `_`, `-`). -/
def latinCont (c : Char) : Bool :=
  is_ascii_letter c || is_ascii_digit c || c == '_' || c == '-'

/-- Continuation predicate of a number run (digits, `.`, `%`). -/
def numberCont (c : Char) : Bool :=
  is_ascii_digit c || c == '.' || c == '%'

/-- Build the span for `text[start:end]`. -/
def mkSpan (text : Str) (idx : Nat) (ty : SpanType) (kind : Option ProtectedKind)
    (s e : Nat) : Span :=
  { span_idx := idx, type := ty, kind := kind, start := s, stop := e,
    text := (text.drop s).take (e - s) }

/-- The scan loop of `preprocess.split_spans`, fuel-indexed (each iteration
consumes at least one character, so `text.length` fuel suffices).  `isPunct`
stands for `util.is_punct_or_symbol`, whose Unicode-category table is an
external collaborator (`unicodedata`); it only selects between the `punct` and
`other` kinds of a single-character span.  The source's guard dropping empty
spans is provably dead (every branch produces `start < end`) and is omitted. -/
def splitGo (isPunct : Char → Bool) (text : Str) :
    Nat → Nat → Nat → List Span
  | 0, _, _ => []
  | fuel + 1, i, idx =>
    if h : i < text.length then
      match url_match_end text i with
      | some j =>
        mkSpan text idx .protected_ (some .url) i j ::
          splitGo isPunct text fuel j (idx + 1)
      | none =>
        let ch := text.get ⟨i, h⟩
        if is_han ch then
          let j := i + 1 + runLen is_han text (i + 1)
          mkSpan text idx .han none i j :: splitGo isPunct text fuel j (idx + 1)
        else if is_space ch then
          let j := i + 1 + runLen is_space text (i + 1)
          mkSpan text idx .protected_ (some .space) i j ::
            splitGo isPunct text fuel j (idx + 1)
        else if is_ascii_letter ch then
          let j := i + 1 + runLen latinCont text (i + 1)
          mkSpan text idx .protected_ (some .latin) i j ::
            splitGo isPunct text fuel j (idx + 1)
        else if is_ascii_digit ch then
          let j := i + 1 + runLen numberCont text (i + 1)
          mkSpan text idx .protected_ (some .number) i j ::
            splitGo isPunct text fuel j (idx + 1)
        else
          let kind : ProtectedKind := if isPunct ch then .punct else .other
          mkSpan text idx .protected_ (some kind) i (i + 1) ::
            splitGo isPunct text fuel (i + 1) (idx + 1)
    else []

/-- `preprocess.split_spans`. -/
def split_spans (isPunct : Char → Bool) (text : Str) : List Span :=
  splitGo isPunct text text.length 0 0

/-- Spans cover `[a, b)` gaplessly in order: the first starts at `a`, each
starts where its predecessor stops, and the last stops at `b`. -/
def Contiguous : Nat → List Span → Nat → Prop
  | a, [], b => a = b
  | a, s :: rest, b => s.start = a ∧ Contiguous s.stop rest b

/-! ### Splitter facts -/

theorem takeWhile_length_le {α : Type} (p : α → Bool) :
    ∀ l : List α, (l.takeWhile p).length ≤ l.length := by
  intro l
  induction l with
  | nil => simp [List.takeWhile]
  | cons a as ih =>
    rw [List.takeWhile]
    cases p a
    · simp
    · simp only [List.length_cons]
      omega

theorem urlTryAt_bounds (text : Str) (i k j : Nat)
    (h : urlTryAt text i k = some j) : i < j ∧ j ≤ text.length := by
  unfold urlTryAt at h
  split at h
  · rename_i hc
    split at h
    · rename_i hm
      have h3 : 3 ≤ ((text.drop i).drop k).length := by
        have hc' : ((text.drop i).drop k).take 3 = [':', '/', '/'] := by
          simpa using hc
        have := congrArg List.length hc'
        simp only [List.length_take, List.length_cons, List.length_nil]
          at this
        omega
      have hmle : nonSpaceRun ((text.drop i).drop (k + 3)) ≤
          ((text.drop i).drop (k + 3)).length := takeWhile_length_le _ _
      simp only [Option.some.injEq] at h
      simp only [List.length_drop] at h3 hmle
      omega
    · cases h
  · cases h

theorem url_match_end_bounds (text : Str) (i j : Nat)
    (h : url_match_end text i = some j) : i < j ∧ j ≤ text.length := by
  unfold url_match_end at h
  split at h
  · split at h
    · -- with the optional s: first try k = 5, then k = 4
      match h5 : urlTryAt text i 5 with
      | some j' =>
        rw [h5] at h
        have h' : j' = j := by simpa using h
        exact h' ▸ urlTryAt_bounds text i 5 j' h5
      | none =>
        rw [h5] at h
        exact urlTryAt_bounds text i 4 j h
    · exact urlTryAt_bounds text i 4 j h
  · cases h

theorem runLen_le (p : Char → Bool) (text : Str) (j : Nat) :
    j + runLen p text j ≤ max j text.length := by
  unfold runLen
  have h1 : ((text.drop j).takeWhile p).length ≤ (text.drop j).length :=
    takeWhile_length_le _ _
  simp only [List.length_drop] at h1
  omega

/-- Slices recombine: `text[i:j] + text[j:] = text[i:]`. -/
theorem slice_append (text : Str) (i j : Nat) (hij : i ≤ j) :
    (text.drop i).take (j - i) ++ text.drop j = text.drop i := by
  have h := List.take_append_drop (j - i) (text.drop i)
  rw [List.drop_drop] at h
  have he : i + (j - i) = j := by omega
  rw [he] at h
  exact h

theorem splitGo_partition (isPunct : Char → Bool) (text : Str) :
    ∀ fuel i idx, i ≤ text.length → text.length - i ≤ fuel →
    Contiguous i (splitGo isPunct text fuel i idx) text.length ∧
    ((splitGo isPunct text fuel i idx).map Span.text).flatten = text.drop i ∧
    (∀ sp ∈ splitGo isPunct text fuel i idx,
      sp.type = .han → ∃ c ∈ text, is_han c = true) := by
  intro fuel
  induction fuel with
  | zero =>
    intro i idx hi hfi
    have : i = text.length := by omega
    subst this
    simp [splitGo, Contiguous]
  | succ fuel ih =>
    intro i idx hi hfi
    by_cases h : i < text.length
    · -- one scan step; every branch produces a span [i, j) with i < j ≤ n
      have step : ∀ (ty : SpanType) (kind : Option ProtectedKind) (j : Nat),
          i < j → j ≤ text.length →
          (ty = .han → ∃ c ∈ text, is_han c = true) →
          Contiguous i
            (mkSpan text idx ty kind i j ::
              splitGo isPunct text fuel j (idx + 1)) text.length ∧
          (((mkSpan text idx ty kind i j ::
              splitGo isPunct text fuel j (idx + 1)).map Span.text).flatten
            = text.drop i) ∧
          (∀ sp ∈ mkSpan text idx ty kind i j ::
              splitGo isPunct text fuel j (idx + 1),
            sp.type = .han → ∃ c ∈ text, is_han c = true) := by
        intro ty kind j hij hjn hanOk
        obtain ⟨hc, hf, hh⟩ := ih j (idx + 1) hjn (by omega)
        refine ⟨⟨rfl, hc⟩, ?_, ?_⟩
        · simp only [List.map_cons, List.flatten_cons, mkSpan]
          rw [hf]
          exact slice_append text i j (by omega)
        · intro sp hsp hty
          rcases List.mem_cons.mp hsp with h1 | h1
          · subst h1
            exact hanOk hty
          · exact hh sp h1 hty
      rw [splitGo]
      simp only [h, dif_pos]
      match hurl : url_match_end text i with
      | some j =>
        obtain ⟨hij, hjn⟩ := url_match_end_bounds text i j hurl
        exact step .protected_ (some .url) j hij hjn (by intro hx; cases hx)
      | none =>
        set ch := text.get ⟨i, h⟩ with hch
        by_cases hhan : is_han ch = true
        · simp only [hhan, if_true]
          have hj := runLen_le is_han text (i + 1)
          refine step .han none (i + 1 + runLen is_han text (i + 1))
            (by omega) (by omega) ?_
          intro _
          exact ⟨ch, List.get_mem text i h, hhan⟩
        · simp only [hhan, if_false]
          by_cases hsp : is_space ch = true
          · simp only [hsp, if_true]
            have hj := runLen_le is_space text (i + 1)
            exact step .protected_ (some .space)
              (i + 1 + runLen is_space text (i + 1)) (by omega) (by omega)
              (by intro hx; cases hx)
          · simp only [hsp, if_false]
            by_cases hlt : is_ascii_letter ch = true
            · simp only [hlt, if_true]
              have hj := runLen_le latinCont text (i + 1)
              exact step .protected_ (some .latin)
                (i + 1 + runLen latinCont text (i + 1)) (by omega) (by omega)
                (by intro hx; cases hx)
            · simp only [hlt, if_false]
              by_cases hdg : is_ascii_digit ch = true
              · simp only [hdg, if_true]
                have hj := runLen_le numberCont text (i + 1)
                exact step .protected_ (some .number)
                  (i + 1 + runLen numberCont text (i + 1)) (by omega)
                  (by omega) (by intro hx; cases hx)
              · simp only [hdg, if_false]
                exact step .protected_
                  (some (if isPunct ch then .punct else .other)) (i + 1)
                  (by omega) (by omega) (by intro hx; cases hx)
    · have : i = text.length := by omega
      subst this
      rw [splitGo]
      simp [Contiguous]

/-- C1.  `split_spans` partitions its input: the spans are contiguous and
non-overlapping — the first starts at offset 0, each next span starts where the
previous stops, the last stops at `text.length` — and the concatenation of the
span texts is exactly the input text. -/
theorem c1_split_spans_partition (isPunct : Char → Bool) (text : Str) :
    Contiguous 0 (split_spans isPunct text) text.length ∧
    ((split_spans isPunct text).map Span.text).flatten = text := by
  obtain ⟨hc, hf, _⟩ :=
    splitGo_partition isPunct text text.length 0 0 (by omega) (by omega)
  exact ⟨hc, by simpa using hf⟩

/-- Auxiliary for later claims: a text without Han characters splits into
protected spans only. -/
theorem split_spans_no_han (isPunct : Char → Bool) (text : Str)
    (hnone : ∀ c ∈ text, is_han c = false) :
    ∀ sp ∈ split_spans isPunct text, sp.type = .protected_ := by
  obtain ⟨_, _, hh⟩ :=
    splitGo_partition isPunct text text.length 0 0 (by omega) (by omega)
  intro sp hsp
  cases hty : sp.type with
  | protected_ => rfl
  | han =>
    obtain ⟨c, hc, hhan⟩ := hh sp hsp hty
    rw [hnone c hc] at hhan
    cases hhan

/-! ## Word maps (ResourceStore boundary)

The word dictionary and lexicon arrive as in-memory Python dicts
(`word → space-separated toned syllables`); dicts are modelled as association
lists looked up by first match (keys are unique in a dict). -/

abbrev WordMap := List (Str × Str)

def wordLookup (m : WordMap) (k : Str) : Option Str :=
  match m.find? fun e => e.1 == k with
  | some e => some e.2
  | none => none

def wordMem (m : WordMap) (k : Str) : Bool :=
  (wordLookup m k).isSome

/-- `core._build_max_len_by_first_char`, read at one key: the running
`max(out.get(fc, 0), len(w))` over the words starting with `fc` (empty words
skipped). -/
def max_len_by_first_char (words : WordMap) (fc : Char) : Nat :=
  words.foldl
    (fun acc e =>
      match e.1 with
      | [] => acc
      | c :: _ => if c == fc then max acc e.1.length else acc)
    0

/-- `max_len_by_fc.get(fc, 1)`: the dict has an entry for `fc` exactly when
some non-empty word starts with `fc`, in which case the entry is positive, so
a zero fold result is the missing-key default `1`. -/
def fmm_max_len (words : WordMap) (fc : Char) : Nat :=
  let m := max_len_by_first_char words fc
  if m = 0 then 1 else m

/-- The `for L in range(min(max_len, n - i), 0, -1)` search of
`core._segment_fmm`: longest dictionary prefix of `rest` of length at most
`L`. -/
def fmm_find (words : WordMap) (rest : Str) : Nat → Option Str
  | 0 => none
  | L + 1 =>
    if wordMem words (rest.take (L + 1)) then some (rest.take (L + 1))
    else fmm_find words rest L

/-- The scan loop of `core._segment_fmm`, fuel-indexed (each iteration
consumes at least one character). -/
def segmentGo (words : WordMap) : Nat → Str → List Str
  | 0, _ => []
  | _, [] => []
  | fuel + 1, c :: rest' =>
    match fmm_find words (c :: rest')
        (min (fmm_max_len words c) (c :: rest').length) with
    | none => [c] :: segmentGo words fuel rest'
    | some cand => cand :: segmentGo words fuel ((c :: rest').drop cand.length)

/-- `core._segment_fmm`. -/
def _segment_fmm (words : WordMap) (text : Str) : List Str :=
  segmentGo words text.length text

/-! ## Tokenizer (core.py) -/

/-- `types.Token`; span ids are modelled by their numeric index as in `Span`. -/
structure Token where
  span_id : Nat
  index_in_span : Nat
  start : Nat
  stop : Nat
  text : Str
  upos : Str
  xpos : Str
  ner : Str
deriving DecidableEq, Repr

/-- The token-emitting cursor loop shared by `_tokens_from_spans_fallback` and
`_tokens_from_spans_llm_or_fallback.fallback_for_span`: fallback tokens carry
the sentinel tags `X` / `UNK` / `O`. -/
def tokensFromSegGo (sid : Nat) : Nat → Nat → List Str → List Token
  | _, _, [] => []
  | idx, cursor, t :: ts =>
    { span_id := sid, index_in_span := idx, start := cursor,
      stop := cursor + t.length, text := t,
      upos := ['X'], xpos := ['U', 'N', 'K'], ner := ['O'] } ::
      tokensFromSegGo sid (idx + 1) (cursor + t.length) ts

def fallback_tokens_for_span (words : WordMap) (sp : Span) : List Token :=
  tokensFromSegGo sp.span_idx 0 sp.start (_segment_fmm words sp.text)

/-- `core._tokens_from_spans_fallback`. -/
def _tokens_from_spans_fallback (spans : List Span) (words : WordMap) :
    List Token :=
  ((spans.filter fun sp => sp.type == .han).map
    (fallback_tokens_for_span words)).flatten

/-- One token object of the advisory response, after the `isinstance(t, dict)`
filter; a `none` field models a missing or non-string entry. -/
structure RawTok where
  text : Option Str
  upos : Option Str
  xpos : Option Str
  ner : Option Str
deriving DecidableEq, Repr

/-- One span entry of the advisory response that passed the
`isinstance(sid, str) and isinstance(toks, list)` shape check. -/
structure RespSpan where
  span_id : Nat
  tokens : List RawTok
deriving DecidableEq, Repr

/-- `core._ALLOWED_UPOS` (17 Universal Dependencies tags). -/
def allowed_upos : List Str :=
  [['A', 'D', 'J'], ['A', 'D', 'P'], ['A', 'D', 'V'], ['A', 'U', 'X'],
   ['C', 'C', 'O', 'N', 'J'], ['D', 'E', 'T'], ['I', 'N', 'T', 'J'],
   ['N', 'O', 'U', 'N'], ['N', 'U', 'M'], ['P', 'A', 'R', 'T'],
   ['P', 'R', 'O', 'N'], ['P', 'R', 'O', 'P', 'N'],
   ['P', 'U', 'N', 'C', 'T'], ['S', 'C', 'O', 'N', 'J'], ['S', 'Y', 'M'],
   ['V', 'E', 'R', 'B'], ['X']]

/-- `core._ALLOWED_NER` (CoNLL named-entity tags). -/
def allowed_ner : List Str :=
  [['O'], ['P', 'E', 'R'], ['L', 'O', 'C'], ['O', 'R', 'G'],
   ['M', 'I', 'S', 'C']]

/-- `by_span_id[sid]`: repeated dict assignment keeps the last entry for a
duplicated span id. -/
def by_span_id (resp : List RespSpan) (sid : Nat) : Option (List RawTok) :=
  ((resp.filter fun s => s.span_id == sid).getLast?).map RespSpan.tokens

/-- A validated advisory token: text, upos, xpos, ner. -/
abbrev VTok := Str × Str × Str × Str

/-- The per-token validation loop: every token needs a non-empty text, an
allowed upos, a non-empty xpos and an allowed ner. -/
def validate_toks : List RawTok → Option (List VTok)
  | [] => some []
  | t :: ts =>
    match t.text, t.upos, t.xpos, t.ner with
    | some tt, some up, some xp, some nr =>
      if tt.isEmpty then none
      else if !(allowed_upos.contains up) then none
      else if xp.isEmpty then none
      else if !(allowed_ner.contains nr) then none
      else (validate_toks ts).map ((tt, up, xp, nr) :: ·)
    | _, _, _, _ => none

/-- Per-span advisory validation: the span must be present in the response
with a non-empty token list (`if not llm_toks`), every token must validate,
and the concatenated token texts must equal the span text. -/
def advisory_valid (bySid : Nat → Option (List RawTok)) (sp : Span) :
    Option (List VTok) :=
  match bySid sp.span_idx with
  | none => none
  | some toks =>
    if toks.isEmpty then none
    else
      match validate_toks toks with
      | none => none
      | some vs => if (vs.map Prod.fst).flatten == sp.text then some vs else none

/-- The advisory-path token-building cursor loop. -/
def advisoryBuildGo (sid : Nat) : Nat → Nat → List VTok → List Token
  | _, _, [] => []
  | idx, cursor, (tt, up, xp, nr) :: vs =>
    { span_id := sid, index_in_span := idx, start := cursor,
      stop := cursor + tt.length, text := tt, upos := up, xpos := xp,
      ner := nr } :: advisoryBuildGo sid (idx + 1) (cursor + tt.length) vs

def advisory_tokens_build (sp : Span) (vs : List VTok) : List Token :=
  advisoryBuildGo sp.span_idx 0 sp.start vs

/-- The per-Han-span body of the loop in
`core._tokens_from_spans_llm_or_fallback`: advisory tokens when the span
validates, Forward Maximum Matching otherwise.  The boolean reports whether
the span fell back (was appended to `invalid_spans`). -/
def tokens_for_han_span (words : WordMap) (bySid : Nat → Option (List RawTok))
    (sp : Span) : List Token × Bool :=
  match advisory_valid bySid sp with
  | some vs => (advisory_tokens_build sp vs, false)
  | none => (fallback_tokens_for_span words sp, true)

/-- Diagnostic metadata of the tokenizer (request/response echoes omitted:
they are deterministic functions of the same inputs). -/
structure LlmMeta where
  used : Bool
  error : Option String
  invalid_spans : Option (List Nat)
deriving DecidableEq, Repr

def LlmMeta.unused : LlmMeta :=
  { used := false, error := none, invalid_spans := none }

/-- `core._tokens_from_spans_llm_or_fallback`.  The advisory adapter is
modelled by its observable outcome: `none` = no adapter configured,
`some none` = the call failed or the response was malformed at the top level
(missing callable, exception, non-object response, missing span list),
`some (some rs)` = the shape-checked per-span response entries. -/
def tokens_llm_or_fallback (spans : List Span) (words : WordMap)
    (resp : Option (Option (List RespSpan))) : List Token × LlmMeta :=
  match resp with
  | none => (_tokens_from_spans_fallback spans words, LlmMeta.unused)
  | some r =>
    if (spans.filter fun sp => sp.type == .han).isEmpty then
      (_tokens_from_spans_fallback spans words, LlmMeta.unused)
    else
      match r with
      | none =>
        (_tokens_from_spans_fallback spans words,
         { used := true, error := some "llm_segment_and_tag_failed",
           invalid_spans := none })
      | some rs =>
        let hanSpans := spans.filter fun sp => sp.type == .han
        let results := hanSpans.map fun sp =>
          (sp, tokens_for_han_span words (by_span_id rs) sp)
        ((results.map fun x => x.2.1).flatten,
         { used := true, error := none,
           invalid_spans :=
             some (((results.filter fun x => x.2.2).map
               fun x => x.1.span_idx)) })

/-! ### Tokenizer facts -/

theorem fmm_find_shape (words : WordMap) (rest : Str) :
    ∀ L cand, fmm_find words rest L = some cand →
    ∃ L', 1 ≤ L' ∧ L' ≤ L ∧ cand = rest.take L' := by
  intro L
  induction L with
  | zero => intro cand h; cases h
  | succ L ih =>
    intro cand h
    rw [fmm_find] at h
    split at h
    · simp only [Option.some.injEq] at h
      exact ⟨L + 1, by omega, by omega, h.symm⟩
    · obtain ⟨L', h1, h2, h3⟩ := ih cand h
      exact ⟨L', h1, by omega, h3⟩

theorem take_append_drop_min (l : Str) (n : Nat) :
    l.take n ++ l.drop (l.take n).length = l := by
  rw [List.length_take]
  by_cases h : n ≤ l.length
  · rw [min_eq_left h]
    exact List.take_append_drop n l
  · rw [min_eq_right (by omega)]
    rw [List.take_of_length_le (by omega), List.drop_length]
    simp

theorem segmentGo_concat (words : WordMap) :
    ∀ fuel rest, rest.length ≤ fuel →
    (segmentGo words fuel rest).flatten = rest := by
  intro fuel
  induction fuel with
  | zero =>
    intro rest h
    have : rest = [] := List.length_eq_zero.mp (by omega)
    subst this
    simp [segmentGo]
  | succ fuel ih =>
    intro rest h
    match rest with
    | [] => simp [segmentGo]
    | c :: rest' =>
      rw [segmentGo]
      match hf : fmm_find words (c :: rest')
          (min (fmm_max_len words c) (c :: rest').length) with
      | none =>
        simp only [List.flatten_cons]
        rw [ih rest' (by simp at h ⊢; omega)]
        rfl
      | some cand =>
        obtain ⟨L', h1, _, h3⟩ := fmm_find_shape words (c :: rest') _ cand hf
        simp only [List.flatten_cons]
        have hclen : 1 ≤ cand.length := by
          subst h3
          simp only [List.length_take, List.length_cons]
          omega
        rw [ih ((c :: rest').drop cand.length)
          (by simp only [List.length_drop, List.length_cons] at h ⊢; omega)]
        subst h3
        exact take_append_drop_min (c :: rest') L'

/-- The FMM segmentation of a span text concatenates back to it. -/
theorem segment_fmm_concat (words : WordMap) (text : Str) :
    (_segment_fmm words text).flatten = text :=
  segmentGo_concat words text.length text (le_refl _)

theorem tokensFromSegGo_texts (sid : Nat) :
    ∀ seg idx cursor, (tokensFromSegGo sid idx cursor seg).map Token.text = seg := by
  intro seg
  induction seg with
  | nil => intro idx cursor; rfl
  | cons t ts ih =>
    intro idx cursor
    simp only [tokensFromSegGo, List.map_cons]
    rw [ih]

theorem advisoryBuildGo_texts (sid : Nat) :
    ∀ vs idx cursor,
      (advisoryBuildGo sid idx cursor vs).map Token.text = vs.map Prod.fst := by
  intro vs
  induction vs with
  | nil => intro idx cursor; rfl
  | cons v vs ih =>
    intro idx cursor
    match v with
    | (tt, up, xp, nr) =>
      simp only [advisoryBuildGo, List.map_cons]
      rw [ih]

theorem fallback_tokens_concat (words : WordMap) (sp : Span) :
    ((fallback_tokens_for_span words sp).map Token.text).flatten = sp.text := by
  unfold fallback_tokens_for_span
  rw [tokensFromSegGo_texts]
  exact segment_fmm_concat words sp.text

theorem advisory_valid_concat (bySid : Nat → Option (List RawTok)) (sp : Span)
    (vs : List VTok) (h : advisory_valid bySid sp = some vs) :
    (vs.map Prod.fst).flatten = sp.text := by
  unfold advisory_valid at h
  split at h
  · cases h
  · split at h
    · cases h
    · split at h
      · cases h
      · split at h
        · rename_i hcheck
          simp only [Option.some.injEq] at h
          subst h
          simpa using hcheck
        · cases h

/-- C2.  For every Han span: the token texts produced for the span
concatenate to exactly the span text; a validated advisory response yields the
advisory tokens for the span, and a span whose advisory tokens are missing or
fail validation gets the Forward-Maximum-Match tokens for that span alone
(flagged invalid); and the full tokenizer output is the in-order concatenation
of these per-span token lists over all Han spans, so every Han span is
covered. -/
theorem c2_tokenizer_span_coverage (words : WordMap)
    (bySid : Nat → Option (List RawTok)) (sp : Span) (hsp : sp.type = .han) :
    (((tokens_for_han_span words bySid sp).1.map Token.text).flatten
      = sp.text) ∧
    (∀ vs, advisory_valid bySid sp = some vs →
      tokens_for_han_span words bySid sp = (advisory_tokens_build sp vs, false)) ∧
    (advisory_valid bySid sp = none →
      tokens_for_han_span words bySid sp =
        (fallback_tokens_for_span words sp, true)) ∧
    (∀ (spans : List Span) (rs : List RespSpan),
      (spans.filter fun s => s.type == .han).isEmpty = false →
      (tokens_llm_or_fallback spans words (some (some rs))).1 =
        ((spans.filter fun s => s.type == .han).map fun s =>
          (tokens_for_han_span words (by_span_id rs) s).1).flatten) := by
  refine ⟨?_, ?_, ?_, ?_⟩
  · unfold tokens_for_han_span
    match hv : advisory_valid bySid sp with
    | some vs =>
      simp only
      unfold advisory_tokens_build
      rw [advisoryBuildGo_texts]
      exact advisory_valid_concat bySid sp vs hv
    | none =>
      simp only
      exact fallback_tokens_concat words sp
  · intro vs hv
    unfold tokens_for_han_span
    rw [hv]
  · intro hv
    unfold tokens_for_han_span
    rw [hv]
  · intro spans rs hne
    unfold tokens_llm_or_fallback
    rw [hne]
    simp [Function.comp_def]

/-- Witness for C2 at a concrete Han span with no advisory response. -/
theorem c2_tokenizer_span_coverage_witness :
    (Span.mk 0 .han none 0 1 ['中']).type = .han ∧
    (((tokens_for_han_span [] (fun _ => none)
        (Span.mk 0 .han none 0 1 ['中'])).1.map Token.text).flatten
      = (Span.mk 0 .han none 0 1 ['中']).text) :=
  ⟨rfl, (c2_tokenizer_span_coverage [] (fun _ => none)
    (Span.mk 0 .han none 0 1 ['中']) rfl).1⟩

/-! ## JSON values and Python numeric coercions

Resource entries and advisory responses are JSON data.  `JVal` models the
JSON scalars that the resolution logic inspects; arrays and objects in a
position where the code only ever fails to coerce them are collapsed to
`jarr`/`jobj`.  Python floats are modelled as rationals. -/

inductive JVal where
  | jnull
  | jbool (b : Bool)
  | jint (i : Int)
  | jfloat (q : Rat)
  | jstr (s : Str)
  | jarr
  | jobj
deriving DecidableEq, Repr

/-- Value of a non-empty all-digit string. -/
def parseDigits (l : Str) : Option Nat :=
  if l.isEmpty then none
  else if l.all is_ascii_digit then
    some (l.foldl (fun a c => a * 10 + (c.toNat - 48)) 0)
  else none

/-- Strip leading and trailing whitespace (as Python `int()`/`float()` do). -/
def stripWs (s : Str) : Str :=
  ((s.dropWhile is_space).reverse.dropWhile is_space).reverse

/-- Python `int(s)` on a string: optional sign and digits.  (Underscore
separators and other exotic accepted forms are outside this model.) -/
def parseIntStr (s : Str) : Option Int :=
  match stripWs s with
  | '+' :: rest => (parseDigits rest).map Int.ofNat
  | '-' :: rest => (parseDigits rest).map fun n => -(n : Int)
  | rest => (parseDigits rest).map Int.ofNat

/-- Value of `ip.fp` as a rational. -/
def parseFracParts (ip fp : Str) : Option Rat :=
  if ip.isEmpty && fp.isEmpty then none
  else if ip.all is_ascii_digit && fp.all is_ascii_digit then
    some ((ip.foldl (fun a c => a * 10 + (c.toNat - 48)) 0 : Rat) +
      (fp.foldl (fun a c => a * 10 + (c.toNat - 48)) 0 : Rat) /
        ((10 : Rat) ^ fp.length))
  else none

/-- Python `float(s)` on a string: optional sign, digits with an optional
decimal point.  (Exponents, `inf`/`nan` and underscores are outside this
model.) -/
def parseFloatStr (s : Str) : Option Rat :=
  let body : Str → Option Rat := fun l =>
    match l.span fun c => c ≠ '.' with
    | (ip, []) => parseFracParts ip []
    | (ip, _ :: fp) => parseFracParts ip fp
  match stripWs s with
  | '+' :: rest => body rest
  | '-' :: rest => (body rest).map Neg.neg
  | rest => body rest

/-- Python `int(x)`: identity on ints, 0/1 on bools, truncation toward zero on
floats, string parsing; `none` models a raised `TypeError`/`ValueError`. -/
def pyInt : JVal → Option Int
  | .jint i => some i
  | .jbool b => some (if b then 1 else 0)
  | .jfloat q => some (if 0 ≤ q then ⌊q⌋ else ⌈q⌉)
  | .jstr s => parseIntStr s
  | .jnull => none
  | .jarr => none
  | .jobj => none

/-- Python `float(x)`. -/
def pyFloat : JVal → Option Rat
  | .jint i => some (i : Rat)
  | .jbool b => some (if b then 1 else 0)
  | .jfloat q => some q
  | .jstr s => parseFloatStr s
  | .jnull => none
  | .jarr => none
  | .jobj => none

/-! ## Polyphone table and `_polyphone_pick` -/

/-- The global disambiguation thresholds.  The source reads them from the
thresholds map with defaults `5` / `0.85` / `0.15` and casts them with
`int()`/`float()`; they are modelled already numeric (ResourceStore
boundary). -/
structure Thresholds where
  min_support : Int
  min_prob : Rat
  min_margin : Rat
deriving DecidableEq, Repr

/-- One per-context entry of the polyphone table.  A missing field is `jnull`
(`dict.get` returns `None` either way). -/
structure PolyCtx where
  best : JVal
  p : JVal
  p2 : JVal
  n : JVal
deriving DecidableEq, Repr

/-- One polyphone-table item.  `candidates = none` models a missing or
not-all-strings field (the code then substitutes `[]`); a non-dict `contexts`
value is modelled as the empty context list. -/
structure PolyItem where
  default : JVal
  candidates : Option (List Str)
  contexts : List (Str × PolyCtx)
deriving DecidableEq, Repr

abbrev DisambigMap := List (Char × PolyItem)

/-- `disambig.get(ch)`; a non-dict item behaves identically to a missing one
and is modelled as absent. -/
def disambigLookup (m : DisambigMap) (ch : Char) : Option PolyItem :=
  (m.find? fun e => e.1 == ch).map Prod.snd

/-- `ctxs.get(key)`; a non-dict context value behaves identically to a
missing one and is modelled as absent. -/
def ctxLookup (ctxs : List (Str × PolyCtx)) (key : Str) : Option PolyCtx :=
  (ctxs.find? fun e => e.1 == key).map Prod.snd

/-- The context key `f"pos={upos}|ner={ner}"`. -/
def ctx_key (upos ner : Str) : Str :=
  ['p', 'o', 's', '='] ++ upos ++ ['|', 'n', 'e', 'r', '='] ++ ner

/-- `int(n) if n is not None else 0`, with a failed conversion as `none`. -/
def pyNumOrZeroI (v : JVal) : Option Int :=
  match v with
  | .jnull => some 0
  | v => pyInt v

/-- `float(p) if p is not None else 0.0`, with a failed conversion as
`none`. -/
def pyNumOrZeroF (v : JVal) : Option Rat :=
  match v with
  | .jnull => some 0
  | v => pyFloat v

/-- The `try: int(n)/float(p)/float(p2) except: all zeros` block: a `None`
field becomes 0 without a conversion attempt; if any attempted conversion
fails, all three default to 0 (and nothing is raised). -/
def convTriple (nv pv p2v : JVal) : Int × Rat × Rat :=
  match pyNumOrZeroI nv, pyNumOrZeroF pv, pyNumOrZeroF p2v with
  | some a, some b, some c => (a, b, c)
  | _, _, _ => (0, 0, 0)

/-- The `default`-else-`candidates[0]`-else-`""` chain of
`core._polyphone_pick` (it appears twice in the source: for a missing context
entry and for a missing/empty `best`). -/
def pickDefault (item : PolyItem) : Str × Option Rat × Bool :=
  match item.default with
  | .jstr d =>
    if d.isEmpty then
      match item.candidates.getD [] with
      | [] => ([], none, false)
      | c :: _ => (c, none, false)
    else (d, none, false)
  | _ =>
    match item.candidates.getD [] with
    | [] => ([], none, false)
    | c :: _ => (c, none, false)

/-- `core._polyphone_pick`: returns `(chosen, confidence, confident_enough)`. -/
def _polyphone_pick (disambig : DisambigMap) (thr : Thresholds) (ch : Char)
    (upos ner : Str) : Str × Option Rat × Bool :=
  match disambigLookup disambig ch with
  | none => ([], none, false)
  | some item =>
    match ctxLookup item.contexts (ctx_key upos ner) with
    | none => pickDefault item
    | some ctx =>
      match ctx.best with
      | .jstr best =>
        if best.isEmpty then pickDefault item
        else
          let t := convTriple ctx.n ctx.p ctx.p2
          (best,
           if ctx.p = .jnull then none else some t.2.1,
           decide (thr.min_support ≤ t.1) &&
             decide (thr.min_prob ≤ t.2.1) &&
             decide (thr.min_margin ≤ t.2.1 - t.2.2))
      | _ => pickDefault item

/-! ## CharResolver (`_analyze_token`) -/

inductive ResolvedBy where
  | word
  | char_base
  | polyphone_disambig
  | override
  | llm_double_check
  | user
  | fallback
  | unknown
deriving DecidableEq, Repr

/-- Decision notes; the source stores formatted strings, modelled here by
their content. -/
inductive Note where
  | char_not_in_char_base
  | low_confidence_or_low_support
  | override_reaffirm (rid : Str)
  | llm_double_check_needs_user
  | llm_reason (reason : Str)
deriving DecidableEq, Repr

/-- `types.CharDecision`. -/
structure CharDecision where
  char : Char
  offset_in_token : Nat
  candidates : List Str
  chosen : Str
  resolved_by : ResolvedBy
  confidence : Option Rat := none
  rule_id : Option Str := none
  needs_review : Bool := false
  conflict : Bool := false
  notes : List Note := []
deriving DecidableEq, Repr

abbrev CharBase := List (Char × List Str)

/-- `core._char_candidates` (an empty stored list is falsy and also yields
`[]`). -/
def charCandidates (m : CharBase) (ch : Char) : List Str :=
  ((m.find? fun e => e.1 == ch).map Prod.snd).getD []

/-- Warnings; the source stores formatted strings, modelled here by their
content. -/
inductive Warning where
  | word_pinyin_alignment_mismatch (token : Str) (syllables : Nat) (chars : Nat)
  | dc_token_not_found (sid : Nat) (tokenIndex : Int)
  | dc_char_offset_oob (sid : Nat) (tokenIndex : Int) (offset : Int)
  | dc_char_mismatch (sid : Nat) (tokenIndex : Int) (offset : Nat)
      (expected : Char) (got : Str)
deriving DecidableEq, Repr

/-- The per-character body of the fall-through loop in `core._analyze_token`
(`for i, ch in enumerate(tok.text)`): returns the decision and the output
part. -/
def resolveChar (char_base : CharBase) (disambig : DisambigMap)
    (thr : Thresholds) (upos ner : Str) (i : Nat) (ch : Char) :
    CharDecision × Str :=
  match charCandidates char_base ch with
  | [] =>
    ({ char := ch, offset_in_token := i, candidates := [], chosen := [ch],
       resolved_by := .unknown, confidence := some 0, needs_review := true,
       notes := [.char_not_in_char_base] }, [ch])
  | [c] =>
    ({ char := ch, offset_in_token := i, candidates := [c], chosen := c,
       resolved_by := .char_base, confidence := some 1 }, c)
  | c0 :: c1 :: cs =>
    let cands := c0 :: c1 :: cs
    let r := _polyphone_pick disambig thr ch upos ner
    let chosen := if r.1.isEmpty then c0 else r.1
    let rb : ResolvedBy := if r.1.isEmpty then .fallback else .polyphone_disambig
    ({ char := ch, offset_in_token := i, candidates := cands, chosen := chosen,
       resolved_by := rb, confidence := r.2.1, needs_review := !r.2.2,
       notes := if r.2.2 then [] else [.low_confidence_or_low_support] },
     chosen)

/-- Python `str.split()`: split on whitespace runs, dropping empties
(fuel-indexed). -/
def splitWsGo : Nat → Str → List Str
  | 0, _ => []
  | _, [] => []
  | fuel + 1, c :: rest =>
    if is_space c then splitWsGo fuel rest
    else
      (((c :: rest).takeWhile fun d => !is_space d) ::
        splitWsGo fuel
          ((c :: rest).drop ((c :: rest).takeWhile fun d => !is_space d).length))

def splitWs (s : Str) : List Str :=
  splitWsGo s.length s

/-- The per-character fall-through of `_analyze_token` over a whole token
text. -/
def analyzeChars (char_base : CharBase) (disambig : DisambigMap)
    (thr : Thresholds) (upos ner : Str) (text : Str) :
    Str × List CharDecision :=
  let results := text.enum.map fun p =>
    resolveChar char_base disambig thr upos ner p.1 p.2
  ((results.map fun r => r.2).flatten, results.map fun r => r.1)

/-- `core._analyze_token`: whole-word resolution when the combined dictionary
has an aligned entry, otherwise per-character resolution; returns
`(token_pinyin, decisions, warnings)`. -/
def _analyze_token (tok : Token) (words : WordMap) (char_base : CharBase)
    (disambig : DisambigMap) (thr : Thresholds) :
    Str × List CharDecision × List Warning :=
  match wordLookup words tok.text with
  | some entry =>
    let syllables := splitWs entry
    if syllables.length == tok.text.length then
      (normalize_word_pinyin entry,
       tok.text.enum.map fun p =>
         { char := p.2, offset_in_token := p.1,
           candidates := [syllables.getD p.1 []],
           chosen := syllables.getD p.1 [], resolved_by := .word,
           confidence := some 1 },
       [])
    else
      let r := analyzeChars char_base disambig thr tok.upos tok.ner tok.text
      (r.1, r.2,
       [.word_pinyin_alignment_mismatch tok.text syllables.length
          tok.text.length])
  | none =>
    let r := analyzeChars char_base disambig thr tok.upos tok.ner tok.text
    (r.1, r.2, [])

/-! ### Polyphone claims (C3, C6) -/

/-- The spec's stated thresholds: `min_support 5`, `min_prob 0.85`,
`min_margin 0.15`. -/
def thrGate : Thresholds :=
  { min_support := 5, min_prob := mkRat 85 100, min_margin := mkRat 15 100 }

theorem pyNumOrZeroI_eq (nv : JVal) (h : nv ≠ .jnull) :
    pyNumOrZeroI nv = pyInt nv := by
  cases nv
  case jnull => exact absurd rfl h
  all_goals rfl

theorem pyNumOrZeroF_eq (v : JVal) (h : v ≠ .jnull) :
    pyNumOrZeroF v = pyFloat v := by
  cases v
  case jnull => exact absurd rfl h
  all_goals rfl

theorem convTriple_malformed (nv pv p2v : JVal)
    (h : (pyInt nv = none ∧ nv ≠ .jnull) ∨ (pyFloat pv = none ∧ pv ≠ .jnull) ∨
      (pyFloat p2v = none ∧ p2v ≠ .jnull)) :
    convTriple nv pv p2v = (0, 0, 0) := by
  unfold convTriple
  rcases h with ⟨h1, h2⟩ | ⟨h1, h2⟩ | ⟨h1, h2⟩
  · rw [pyNumOrZeroI_eq nv h2, h1]
    try (cases pyNumOrZeroF pv <;> cases pyNumOrZeroF p2v <;> rfl)
  · rw [pyNumOrZeroF_eq pv h2, h1]
    try (cases pyNumOrZeroI nv <;> cases pyNumOrZeroF p2v <;> rfl)
  · rw [pyNumOrZeroF_eq p2v h2, h1]
    try (cases pyNumOrZeroI nv <;> cases pyNumOrZeroF pv <;> rfl)

/-- The value of the polyphone branch of `resolveChar` when the char-base
lists at least two candidates. -/
theorem resolveChar_poly (char_base : CharBase) (disambig : DisambigMap)
    (thr : Thresholds) (upos ner : Str) (i : Nat) (ch : Char) (c0 c1 : Str)
    (cs : List Str) (hcb : charCandidates char_base ch = c0 :: c1 :: cs) :
    resolveChar char_base disambig thr upos ner i ch =
      (⟨ch, i, c0 :: c1 :: cs,
        (if (_polyphone_pick disambig thr ch upos ner).1.isEmpty then c0
          else (_polyphone_pick disambig thr ch upos ner).1),
        (if (_polyphone_pick disambig thr ch upos ner).1.isEmpty
          then .fallback else .polyphone_disambig),
        (_polyphone_pick disambig thr ch upos ner).2.1,
        none,
        !(_polyphone_pick disambig thr ch upos ner).2.2,
        false,
        (if (_polyphone_pick disambig thr ch upos ner).2.2 then []
          else [.low_confidence_or_low_support])⟩,
       if (_polyphone_pick disambig thr ch upos ner).1.isEmpty then c0
         else (_polyphone_pick disambig thr ch upos ner).1) := by
  unfold resolveChar
  rw [hcb]

/-- C3.  For a polyphone character whose context entry (keyed by the token's
part-of-speech and named-entity tags) has a non-empty `best`: the chosen value
is `best`; the decision is confident iff `n ≥ min_support`, `p ≥ min_prob` and
`p − p2 ≥ min_margin` (on the values produced by the conversion block, which
defaults all three to 0 whenever any present field fails to convert, and — the
embedding being total — never raises); `needs_review` is the negation of
confident, and the reported confidence is `p` (unset when the field is
absent). -/
theorem c3_polyphone_context_confidence (disambig : DisambigMap)
    (thr : Thresholds) (ch : Char) (upos ner : Str) (item : PolyItem)
    (ctx : PolyCtx) (b : Str)
    (hitem : disambigLookup disambig ch = some item)
    (hctx : ctxLookup item.contexts (ctx_key upos ner) = some ctx)
    (hbest : ctx.best = .jstr b) (hb : b.isEmpty = false) :
    (_polyphone_pick disambig thr ch upos ner =
      (b,
       if ctx.p = .jnull then none
         else some (convTriple ctx.n ctx.p ctx.p2).2.1,
       decide (thr.min_support ≤ (convTriple ctx.n ctx.p ctx.p2).1) &&
         decide (thr.min_prob ≤ (convTriple ctx.n ctx.p ctx.p2).2.1) &&
         decide (thr.min_margin ≤
           (convTriple ctx.n ctx.p ctx.p2).2.1 -
             (convTriple ctx.n ctx.p ctx.p2).2.2))) ∧
    (((pyInt ctx.n = none ∧ ctx.n ≠ .jnull) ∨
      (pyFloat ctx.p = none ∧ ctx.p ≠ .jnull) ∨
      (pyFloat ctx.p2 = none ∧ ctx.p2 ≠ .jnull)) →
      convTriple ctx.n ctx.p ctx.p2 = (0, 0, 0)) ∧
    (∀ (char_base : CharBase) (i : Nat) (c0 c1 : Str) (cs : List Str),
      charCandidates char_base ch = c0 :: c1 :: cs →
      (resolveChar char_base disambig thr upos ner i ch).1.chosen = b ∧
      (resolveChar char_base disambig thr upos ner i ch).1.resolved_by =
        .polyphone_disambig ∧
      (resolveChar char_base disambig thr upos ner i ch).1.needs_review =
        !(_polyphone_pick disambig thr ch upos ner).2.2) := by
  have hpick : _polyphone_pick disambig thr ch upos ner =
      (b,
       if ctx.p = .jnull then none
         else some (convTriple ctx.n ctx.p ctx.p2).2.1,
       decide (thr.min_support ≤ (convTriple ctx.n ctx.p ctx.p2).1) &&
         decide (thr.min_prob ≤ (convTriple ctx.n ctx.p ctx.p2).2.1) &&
         decide (thr.min_margin ≤
           (convTriple ctx.n ctx.p ctx.p2).2.1 -
             (convTriple ctx.n ctx.p ctx.p2).2.2)) := by
    unfold _polyphone_pick
    simp only [hitem, hctx, hbest, hb, Bool.false_eq_true, if_false]
  refine ⟨hpick, convTriple_malformed ctx.n ctx.p ctx.p2, ?_⟩
  intro char_base i c0 c1 cs hcb
  have hres := resolveChar_poly char_base disambig thr upos ner i ch c0 c1 cs
    hcb
  refine ⟨?_, ?_, ?_⟩
  · rw [hres, hpick]
    simp [hb]
  · rw [hres, hpick]
    simp [hb]
  · rw [hres, hpick]

def c3upos : Str := ['N', 'O', 'U', 'N']

def c3ner : Str := ['O']

def c3best : Str := ['h', 'á', 'n', 'g']

def c3item (nv : JVal) : PolyItem :=
  { default := .jnull,
    candidates := some [['h', 'á', 'n', 'g'], ['x', 'í', 'n', 'g']],
    contexts := [(ctx_key c3upos c3ner,
      { best := .jstr c3best, p := .jfloat 1, p2 := .jfloat 0, n := nv })] }

def c3dm (nv : JVal) : DisambigMap := [('行', c3item nv)]

def c3cb : CharBase :=
  [('行', [['h', 'á', 'n', 'g'], ['x', 'í', 'n', 'g']])]

def c3tok : Token :=
  { span_id := 0, index_in_span := 0, start := 0, stop := 1, text := ['行'],
    upos := c3upos, xpos := ['n'], ner := c3ner }

/-- Witness for C3, including the spec's concrete gating instances: with
thresholds `{5, 0.85, 0.15}` a context entry with `p = 1.0`, `p2 = 0.0`,
`n = 1000` yields `needs_review = false`, and one with `n = 2` yields
`needs_review = true`. -/
theorem c3_polyphone_context_confidence_witness :
    disambigLookup (c3dm (.jint 1000)) '行' = some (c3item (.jint 1000)) ∧
    _polyphone_pick (c3dm (.jint 1000)) thrGate '行' c3upos c3ner =
      (c3best, some 1, true) ∧
    ((_analyze_token c3tok [] c3cb (c3dm (.jint 1000)) thrGate).2.1.map
      CharDecision.needs_review = [false]) ∧
    ((_analyze_token c3tok [] c3cb (c3dm (.jint 2)) thrGate).2.1.map
      CharDecision.needs_review = [true]) := by
  refine ⟨rfl, ?_, ?_, ?_⟩
  · have h := (c3_polyphone_context_confidence (c3dm (.jint 1000)) thrGate '行'
      c3upos c3ner (c3item (.jint 1000))
      { best := .jstr c3best, p := .jfloat 1, p2 := .jfloat 0, n := .jint 1000 }
      c3best rfl rfl rfl (by decide)).1
    exact h.trans (by with_unfolding_all rfl)
  · with_unfolding_all rfl
  · with_unfolding_all rfl

/-- `pickDefault` always reports no confidence and not confident. -/
theorem pickDefault_snd (item : PolyItem) :
    (pickDefault item).2 = (none, false) := by
  unfold pickDefault
  rcases item.default with _ | b | n | q' | s | _ | _ <;>
    [skip; skip; skip; skip;
     (by_cases hd : s.isEmpty <;> simp only [hd, Bool.false_eq_true,
       if_true, if_false]); skip; skip] <;>
    (try rcases item.candidates.getD [] with _ | ⟨q, rest⟩) <;> rfl

/-- The value chain of `pickDefault`: the non-empty string default, else the
head of the item's candidate list, else the empty string. -/
theorem pickDefault_fst (item : PolyItem) :
    (pickDefault item).1 =
      (match item.default with
       | .jstr dflt =>
         if dflt.isEmpty then (item.candidates.getD []).headD [] else dflt
       | _ => (item.candidates.getD []).headD []) := by
  unfold pickDefault
  rcases item.default with _ | b | n | q' | s | _ | _ <;>
    [skip; skip; skip; skip;
     (by_cases hd : s.isEmpty <;> simp only [hd, Bool.false_eq_true,
       if_true, if_false]); skip; skip] <;>
    (try rcases item.candidates.getD [] with _ | ⟨q, rest⟩) <;> rfl

/-- The outcome the code produces for the decision `d` of a polyphone (whose
char-base candidate list starts with `c0`) when its table item yields no
context entry: the `default`-else-table-`candidates[0]` chain when it is
non-empty, tagged `polyphone_disambig`; the char-base first candidate tagged
`fallback` otherwise. -/
def noContextExpected (item : PolyItem) (c0 : Str) (d : CharDecision) : Prop :=
  if (pickDefault item).1.isEmpty then
    d.chosen = c0 ∧ d.resolved_by = .fallback
  else
    d.chosen = (pickDefault item).1 ∧ d.resolved_by = .polyphone_disambig

/-- C6 (amended).  For a polyphone character (at least two char-base
candidates) with no context entry for its part-of-speech/named-entity key:
confidence is unset and `needs_review` is true; the chosen value follows the
chain `table default → table item's own first candidate → char-base first
candidate`; and provenance is `fallback` exactly when the chain fell through
to the char-base first candidate — a value supplied by the table item (its
default, or its own first candidate) is tagged `polyphone_disambig`, even
though the latter is also a fall-back to a first candidate. -/
theorem c6_no_context_amended (char_base : CharBase) (disambig : DisambigMap)
    (thr : Thresholds) (upos ner : Str) (i : Nat) (ch : Char) (c0 c1 : Str)
    (cs : List Str)
    (hcb : charCandidates char_base ch = c0 :: c1 :: cs)
    (hctx : ∀ item, disambigLookup disambig ch = some item →
      ctxLookup item.contexts (ctx_key upos ner) = none) :
    ((resolveChar char_base disambig thr upos ner i ch).1.needs_review
      = true) ∧
    ((resolveChar char_base disambig thr upos ner i ch).1.confidence
      = none) ∧
    (∀ item, (pickDefault item).1 =
      (match item.default with
       | .jstr dflt =>
         if dflt.isEmpty then (item.candidates.getD []).headD [] else dflt
       | _ => (item.candidates.getD []).headD [])) ∧
    (match disambigLookup disambig ch with
     | none =>
       (resolveChar char_base disambig thr upos ner i ch).1.chosen = c0 ∧
       (resolveChar char_base disambig thr upos ner i ch).1.resolved_by
         = .fallback
     | some item =>
       noContextExpected item c0
         (resolveChar char_base disambig thr upos ner i ch).1) := by
  have hres := resolveChar_poly char_base disambig thr upos ner i ch c0 c1 cs
    hcb
  have hpick : _polyphone_pick disambig thr ch upos ner =
      (match disambigLookup disambig ch with
       | none => ([], none, false)
       | some item => pickDefault item) := by
    unfold _polyphone_pick
    match hd : disambigLookup disambig ch with
    | none => rfl
    | some item => simp only [hctx item hd]
  refine ⟨?_, ?_, fun item => pickDefault_fst item, ?_⟩
  · rw [hres]
    show (!(_polyphone_pick disambig thr ch upos ner).2.2) = true
    rw [hpick]
    match hd : disambigLookup disambig ch with
    | none => rfl
    | some item =>
      show (!(pickDefault item).2.2) = true
      rw [pickDefault_snd]
      rfl
  · rw [hres]
    show (_polyphone_pick disambig thr ch upos ner).2.1 = none
    rw [hpick]
    match hd : disambigLookup disambig ch with
    | none => rfl
    | some item =>
      have h2 : (pickDefault item).2.1 = none := by rw [pickDefault_snd]
      show (pickDefault item).2.1 = none
      rw [h2]
  · match hd : disambigLookup disambig ch with
    | none =>
      have hp : _polyphone_pick disambig thr ch upos ner = ([], none, false) := by
        rw [hpick, hd]
      rw [hres, hp]
      exact ⟨rfl, rfl⟩
    | some item =>
      have hp : _polyphone_pick disambig thr ch upos ner = pickDefault item := by
        rw [hpick, hd]
      unfold noContextExpected
      by_cases hq : (pickDefault item).1.isEmpty
      · simp only [hq, if_true]
        rw [hres, hp]
        exact ⟨by simp [hq], by simp [hq]⟩
      · simp only [hq, Bool.false_eq_true, if_false]
        rw [hres, hp]
        exact ⟨by simp [hq], by simp [hq]⟩

def c6item : PolyItem :=
  { default := .jnull,
    candidates := some [['b', 'i', 'à', 'n'], ['p', 'i', 'á', 'n']],
    contexts := [] }

def c6dm : DisambigMap := [('便', c6item)]

def c6cb : CharBase :=
  [('便', [['b', 'i', 'à', 'n'], ['p', 'i', 'á', 'n']])]

/-- Counterexample to C6 as stated: with no context entry, no declared table
default and a non-empty table candidate list, the code chooses the first
candidate (a fall-back to the first candidate), yet its provenance is
`polyphone_disambig`, not `fallback` — refuting the claim's
"provenance is `fallback` if and only if it fell back to the first
candidate". -/
theorem c6_no_context_counterexample :
    c6item.default = JVal.jnull ∧
    (resolveChar c6cb c6dm thrGate c3upos c3ner 0 '便').1.chosen =
      ['b', 'i', 'à', 'n'] ∧
    (resolveChar c6cb c6dm thrGate c3upos c3ner 0 '便').1.chosen =
      (charCandidates c6cb '便').headD [] ∧
    (resolveChar c6cb c6dm thrGate c3upos c3ner 0 '便').1.resolved_by ≠
      ResolvedBy.fallback ∧
    (resolveChar c6cb c6dm thrGate c3upos c3ner 0 '便').1.resolved_by =
      ResolvedBy.polyphone_disambig := by
  refine ⟨rfl, ?_, ?_, ?_, ?_⟩
  · with_unfolding_all rfl
  · with_unfolding_all rfl
  · exact of_decide_eq_false (by with_unfolding_all rfl)
  · with_unfolding_all rfl

/-- Witness for the amended C6 at its concrete input. -/
theorem c6_no_context_amended_witness :
    charCandidates c6cb '便' = [['b', 'i', 'à', 'n'], ['p', 'i', 'á', 'n']] ∧
    (resolveChar c6cb c6dm thrGate c3upos c3ner 0 '便').1.needs_review
      = true ∧
    (resolveChar c6cb c6dm thrGate c3upos c3ner 0 '便').1.confidence
      = none := by
  have hctx : ∀ item, disambigLookup c6dm '便' = some item →
      ctxLookup item.contexts (ctx_key c3upos c3ner) = none := by
    intro item h
    have h0 : disambigLookup c6dm '便' = some c6item := rfl
    rw [h0] at h
    injection h with h
    subst h
    rfl
  have h := c6_no_context_amended c6cb c6dm thrGate c3upos c3ner 0 '便'
    ['b', 'i', 'à', 'n'] ['p', 'i', 'á', 'n'] [] rfl hctx
  exact ⟨rfl, h.1, h.2.1⟩

/-! ## OverrideEngine (rules.py, core._apply_overrides)

Rules are JSON objects.  A JSON list in a membership-criterion position is
modelled by the sublist of its string elements (`txt in vals` can only match
string elements).  `re.search` is an external collaborator and is passed in
as a function parameter `regexSearch`. -/

/-- Python substring test `needle in hay`. -/
def containsSub (hay needle : Str) : Bool :=
  hay.tails.any fun t => needle.isPrefixOf t

/-- A JSON value in a list-of-strings criterion position. -/
inductive JStrList where
  | strs (l : List Str)
  | notList
deriving DecidableEq, Repr

/-- One `self`/`prev`/`next` criterion object; `none` = key absent. -/
structure MatchPart where
  text : Option JVal := none
  text_in : Option JStrList := none
  regex : Option JVal := none
  upos_in : Option JStrList := none
  xpos_in : Option JStrList := none
  ner_in : Option JStrList := none
  contains : Option JStrList := none
deriving DecidableEq, Repr

/-- `rules._match_part`.  Non-list values for the `_in`/`contains` criteria
impose no constraint; a non-string `regex` value imposes no constraint; any
present `text` value must equal the token text (a non-string never does). -/
def _match_part (regexSearch : Str → Str → Bool) (part : MatchPart)
    (tok : Token) : Bool :=
  let txt := tok.text
  if (match part.text with
      | some v => v != JVal.jstr txt
      | none => false) then false
  else if (match part.text_in with
      | some (.strs vals) => !(vals.contains txt)
      | _ => false) then false
  else if (match part.regex with
      | some (.jstr rx) => !(regexSearch rx txt)
      | _ => false) then false
  else if (match part.upos_in with
      | some (.strs vals) => !(vals.contains tok.upos)
      | _ => false) then false
  else if (match part.xpos_in with
      | some (.strs vals) => !(vals.contains tok.xpos)
      | _ => false) then false
  else if (match part.ner_in with
      | some (.strs vals) => !(vals.contains tok.ner)
      | _ => false) then false
  else if (match part.contains with
      | some (.strs vals) =>
        vals.any fun c => !c.isEmpty && !(containsSub txt c)
      | _ => false) then false
  else true

/-- The `match` object; a field with value `some none` is present but not a
dict (which fails the whole rule). -/
structure RuleMatch where
  self_part : Option (Option MatchPart) := none
  prev_part : Option (Option MatchPart) := none
  next_part : Option (Option MatchPart) := none
deriving DecidableEq, Repr

/-- The `rule.get("match") or {}` value: missing/falsy collapses to the empty
object, a truthy non-dict never matches. -/
inductive RuleMatchField where
  | empty
  | malformed
  | valid (m : RuleMatch)
deriving DecidableEq, Repr

/-- One criterion check: an absent part passes; a present part needs an
existing neighbour token, a dict shape and a `_match_part` success. -/
def checkPart (regexSearch : Str → Str → Bool)
    (partField : Option (Option MatchPart)) (tokOpt : Option Token) : Bool :=
  match partField with
  | none => true
  | some none => false
  | some (some p) =>
    match tokOpt with
    | none => false
    | some t => _match_part regexSearch p t

/-- The occurrence selector: the string `"all"`, an int (Python bools count
as ints), or anything else (which never applies). -/
inductive Occ where
  | all
  | int (k : Int)
  | other
deriving DecidableEq, Repr

/-- The `target` object. -/
structure RuleTargetJ where
  char : Option Str := none
  occurrence : Occ := .other
deriving DecidableEq, Repr

/-- One override rule object (`types.Rule`); `none` fields are missing or of
the wrong type. -/
structure RuleJ where
  id : Option Str := none
  priority : Option Int := none
  match_ : RuleMatchField := .empty
  target : Option RuleTargetJ := none
  choose : Option Str := none
deriving DecidableEq, Repr

/-- `rules.rule_matches`. -/
def rule_matches (regexSearch : Str → Str → Bool) (rule : RuleJ) (tok : Token)
    (prevTok nextTok : Option Token) : Bool :=
  match rule.match_ with
  | .malformed => false
  | .empty => true
  | .valid m =>
    checkPart regexSearch m.self_part (some tok) &&
      checkPart regexSearch m.prev_part prevTok &&
      checkPart regexSearch m.next_part nextTok

/-- Python string comparison (lexicographic by code point). -/
def strLe : Str → Str → Bool
  | [], _ => true
  | _ :: _, [] => false
  | a :: as_, b :: bs =>
    if a.toNat < b.toNat then true
    else if b.toNat < a.toNat then false
    else strLe as_ bs

/-- The sort key of `rules.sort_rules`: priority descending (non-int priority
counts as 0), then id ascending (falsy id counts as `""`). -/
def ruleKey (r : RuleJ) : Int × Str :=
  (-(r.priority.getD 0), r.id.getD [])

def ruleKeyLe (a b : RuleJ) : Bool :=
  if (ruleKey a).1 < (ruleKey b).1 then true
  else if (ruleKey b).1 < (ruleKey a).1 then false
  else strLe (ruleKey a).2 (ruleKey b).2

/-- Stable insertion keeping `x` after key-equal earlier elements. -/
def insertSorted (x : RuleJ) : List RuleJ → List RuleJ
  | [] => [x]
  | y :: ys => if ruleKeyLe y x then y :: insertSorted x ys else x :: y :: ys

/-- `rules.sort_rules`: Python's `sorted` is the stable sort by `ruleKey`,
which this stable insertion sort also computes. -/
def sort_rules (rules : List RuleJ) : List RuleJ :=
  rules.foldl (fun acc x => insertSorted x acc) []

/-- `rules.AppliedRule`; the source stores `str(occurrence)`, modelled by its
content. -/
structure AppliedRule where
  rule_id : Str
  token_start : Nat
  token_end : Nat
  token_text : Str
  target_char : Str
  occurrence : Occ
  choose : Str
deriving DecidableEq, Repr

/-- One conflict record of `_apply_overrides` (the constant
`"type": "override_conflict"` field is implicit in the type). -/
structure Conflict where
  token_text : Str
  token_start : Nat
  token_end : Nat
  char : Str
  offset_in_token : Nat
  existing_rule_id : Str
  existing_choose : Str
  new_rule_id : Str
  new_choose : Str
deriving DecidableEq, Repr

/-- The decision side table keyed by `(token start, token end)`. -/
abbrev DecMap := List ((Nat × Nat) × List CharDecision)

def lookupDecs (m : DecMap) (k : Nat × Nat) : Option (List CharDecision) :=
  (m.find? fun e => e.1 == k).map Prod.snd

def setDecs : DecMap → Nat × Nat → List CharDecision → DecMap
  | [], k, v => [(k, v)]
  | e :: es, k, v => if e.1 == k then (k, v) :: es else e :: setDecs es k v

/-- The `dec.rule_id and dec.rule_id != rid` truthiness test. -/
def ruleIdBlocks (dec : CharDecision) (rid : Str) : Bool :=
  match dec.rule_id with
  | some r => !r.isEmpty && r != rid
  | none => false

/-- The three mutation branches of `_apply_overrides.apply_at` on the target
decision: reaffirm an equal value, leave a different override's value on a
conflict, otherwise set the override value. -/
def applyAtDec (rid choose : Str) (dec : CharDecision) : CharDecision :=
  if dec.chosen == choose then
    { dec with notes := dec.notes ++ [.override_reaffirm rid],
               resolved_by := .override, rule_id := some rid }
  else if dec.resolved_by == ResolvedBy.override && ruleIdBlocks dec rid then
    { dec with conflict := true }
  else
    { dec with chosen := choose, resolved_by := .override,
               rule_id := some rid, needs_review := false }

/-- Whether `apply_at` takes the conflict branch on this decision. -/
def conflictBranchB (rid choose : Str) (dec : CharDecision) : Bool :=
  dec.chosen != choose &&
    (dec.resolved_by == ResolvedBy.override && ruleIdBlocks dec rid)

/-- Whether `apply_at` takes the set branch (recording an `AppliedRule`). -/
def appliedBranchB (rid choose : Str) (dec : CharDecision) : Bool :=
  dec.chosen != choose &&
    !(dec.resolved_by == ResolvedBy.override && ruleIdBlocks dec rid)

/-- The conflict record the conflict branch appends. -/
def conflictRec (rid choose target : Str) (tok : Token) (pos : Nat)
    (dec : CharDecision) : Conflict :=
  { token_text := tok.text, token_start := tok.start, token_end := tok.stop,
    char := target, offset_in_token := pos,
    existing_rule_id := dec.rule_id.getD [], existing_choose := dec.chosen,
    new_rule_id := rid, new_choose := choose }

/-- The applied-rule record the set branch appends. -/
def appliedRec (rid choose target : Str) (tok : Token) (occ : Occ) :
    AppliedRule :=
  { rule_id := rid, token_start := tok.start, token_end := tok.stop,
    token_text := tok.text, target_char := target, occurrence := occ,
    choose := choose }

/-- `core._apply_overrides.apply_at`, acting on the decision list of one token
and the running applied/conflict lists; the branch split of the source is in
`applyAtDec`/`appliedBranchB`/`conflictBranchB`.  An out-of-range position is
returned unchanged (the source would raise `IndexError`; in the pipeline the
applied positions are decision offsets, which are list indices). -/
def apply_at (rid choose target : Str) (tok : Token) (occ : Occ) (pos : Nat)
    (decs : List CharDecision) (applied : List AppliedRule)
    (conflicts : List Conflict) :
    List CharDecision × List AppliedRule × List Conflict :=
  match decs.get? pos with
  | none => (decs, applied, conflicts)
  | some dec =>
    if ([dec.char] : Str) != target then (decs, applied, conflicts)
    else
      (decs.set pos (applyAtDec rid choose dec),
       applied ++
         (if appliedBranchB rid choose dec then
           [appliedRec rid choose target tok occ] else []),
       conflicts ++
         (if conflictBranchB rid choose dec then
           [conflictRec rid choose target tok pos dec] else []))

def positionsOf (decs : List CharDecision) (target : Str) : List Nat :=
  decs.filterMap fun d =>
    if ([d.char] : Str) == target then some d.offset_in_token else none

/-- The occurrence dispatch at the end of the token loop. -/
def applyOcc (rid choose target : Str) (tok : Token) (occ : Occ)
    (positions : List Nat) (decs : List CharDecision)
    (applied : List AppliedRule) (conflicts : List Conflict) :
    List CharDecision × List AppliedRule × List Conflict :=
  match occ with
  | .all =>
    positions.foldl
      (fun st pos => apply_at rid choose target tok occ pos st.1 st.2.1 st.2.2)
      (decs, applied, conflicts)
  | .int k =>
    if 1 ≤ k && k ≤ positions.length then
      match positions.get? (k.toNat - 1) with
      | some pos => apply_at rid choose target tok occ pos decs applied conflicts
      | none => (decs, applied, conflicts)
    else (decs, applied, conflicts)
  | .other => (decs, applied, conflicts)

structure OvState where
  decMap : DecMap
  applied : List AppliedRule
  conflicts : List Conflict
deriving DecidableEq, Repr

/-- The part of the token-loop body after the decision-list lookup. -/
def applyRuleToTokenBody (rid choose target : Str) (occ : Occ) (tok : Token)
    (st : OvState) (decs : List CharDecision) : OvState :=
  if decs.isEmpty then st
  else if (positionsOf decs target).isEmpty then st
  else
    { decMap := setDecs st.decMap (tok.start, tok.stop)
        (applyOcc rid choose target tok occ (positionsOf decs target) decs
          st.applied st.conflicts).1,
      applied := (applyOcc rid choose target tok occ
        (positionsOf decs target) decs st.applied st.conflicts).2.1,
      conflicts := (applyOcc rid choose target tok occ
        (positionsOf decs target) decs st.applied st.conflicts).2.2 }

/-- The body of the token loop of `_apply_overrides` for one already-parsed
rule at one `(token, prev, next)` visit. -/
def applyRuleToToken (regexSearch : Str → Str → Bool) (rid choose target : Str)
    (occ : Occ) (rule : RuleJ) (tok : Token) (prevTok nextTok : Option Token)
    (st : OvState) : OvState :=
  if !(containsSub tok.text target) then st
  else if !(rule_matches regexSearch rule tok prevTok nextTok) then st
  else
    match lookupDecs st.decMap (tok.start, tok.stop) with
    | none => st
    | some decs => applyRuleToTokenBody rid choose target occ tok st decs

/-- `span_to_tokens` grouping (`setdefault(...).append`): groups in order of
first occurrence, tokens in list order. -/
def group_by_span (tokens : List Token) : List (Nat × List Token) :=
  tokens.foldl
    (fun acc tok =>
      match acc.find? fun g => g.1 == tok.span_id with
      | some _ =>
        acc.map fun g =>
          if g.1 == tok.span_id then (g.1, g.2 ++ [tok]) else g
      | none => acc ++ [(tok.span_id, [tok])])
    []

/-- The `(token, prev, next)` triples visited inside one span group. -/
def visitsOfGroup (g : List Token) : List (Token × Option Token × Option Token) :=
  g.enum.map fun p =>
    (p.2, if p.1 = 0 then none else g.get? (p.1 - 1), g.get? (p.1 + 1))

/-- All visits of one rule pass, in execution order. -/
def visits (tokens : List Token) : List (Token × Option Token × Option Token) :=
  ((group_by_span tokens).map fun g => visitsOfGroup g.2).flatten

/-- One full pass of a sorted rule over all spans and tokens, including the
rule-level guards at the head of the loop. -/
def applyRule (regexSearch : Str → Str → Bool) (rule : RuleJ)
    (tokens : List Token) (st : OvState) : OvState :=
  match rule.target, rule.choose, rule.id with
  | some tgt, some chooseRaw, some rid =>
    match tgt.char with
    | none => st
    | some target =>
      if target.isEmpty then st
      else
        (visits tokens).foldl
          (fun s v =>
            applyRuleToToken regexSearch rid (normalize_pinyin chooseRaw)
              target tgt.occurrence rule v.1 v.2.1 v.2.2 s)
          st
  | _, _, _ => st

/-- The state after the whole rule loop of `_apply_overrides` (the rules of a
non-dict or non-string-id shape are dropped by the parsing loop before the
sort). -/
def ov_states (regexSearch : Str → Str → Bool) (tokens : List Token)
    (dm : DecMap) (rules : List RuleJ) : OvState :=
  (sort_rules (rules.filter fun r => r.id.isSome)).foldl
    (fun s r => applyRule regexSearch r tokens s)
    { decMap := dm, applied := [], conflicts := [] }

/-- `core._apply_overrides`: parse, sort, apply each rule in order; returns
the applied-rule list, the conflict list, and the updated decision table. -/
def _apply_overrides (regexSearch : Str → Str → Bool) (tokens : List Token)
    (dm : DecMap) (rules : List RuleJ) :
    List AppliedRule × List Conflict × DecMap :=
  ((ov_states regexSearch tokens dm rules).applied,
   (ov_states regexSearch tokens dm rules).conflicts,
   (ov_states regexSearch tokens dm rules).decMap)

/-! ### Override-engine lemmas (towards C4, C5) -/

theorem get?_set_ne {α : Type} :
    ∀ (l : List α) (i j : Nat) (a : α), i ≠ j →
      (l.set i a).get? j = l.get? j := by
  intro l
  induction l with
  | nil => intro i j a h; rfl
  | cons x xs ih =>
    intro i j a h
    cases i with
    | zero =>
      cases j with
      | zero => exact absurd rfl h
      | succ j => rfl
    | succ i =>
      cases j with
      | zero => rfl
      | succ j => exact ih i j a (by omega)

theorem get?_set_self {α : Type} :
    ∀ (l : List α) (i : Nat) (a b : α), l.get? i = some b →
      (l.set i a).get? i = some a := by
  intro l
  induction l with
  | nil => intro i a b h; cases h
  | cons x xs ih =>
    intro i a b h
    cases i with
    | zero => rfl
    | succ i => exact ih i a b h

theorem set_same {α : Type} :
    ∀ (l : List α) (i : Nat) (a : α), l.get? i = some a → l.set i a = l := by
  intro l
  induction l with
  | nil => intro i a h; cases h
  | cons x xs ih =>
    intro i a h
    cases i with
    | zero =>
      simp only [List.get?] at h
      injection h with h
      rw [List.set, h]
    | succ i =>
      simp only [List.get?] at h
      rw [List.set, ih i a h]

theorem map_set {α β : Type} (f : α → β) :
    ∀ (l : List α) (i : Nat) (a : α),
      (l.set i a).map f = (l.map f).set i (f a) := by
  intro l
  induction l with
  | nil => intro i a; rfl
  | cons x xs ih =>
    intro i a
    cases i with
    | zero => rfl
    | succ i =>
      simp only [List.set, List.map_cons]
      rw [ih]

/-- The char/offset skeleton of a decision, which the override engine never
changes. -/
def projCO (d : CharDecision) : Char × Nat :=
  (d.char, d.offset_in_token)

theorem positionsOf_proj (l : List CharDecision) (target : Str) :
    positionsOf l target =
      (l.map projCO).filterMap
        (fun p => if ([p.1] : Str) == target then some p.2 else none) := by
  rw [List.filterMap_map]
  rfl

theorem positionsOf_of_proj_eq {a b : List CharDecision} (target : Str)
    (h : a.map projCO = b.map projCO) :
    positionsOf a target = positionsOf b target := by
  rw [positionsOf_proj, positionsOf_proj, h]

/-- Offsets from `k` upward coincide with list positions. -/
def OffsetsFrom : Nat → List CharDecision → Prop
  | _, [] => True
  | k, d :: ds => d.offset_in_token = k ∧ OffsetsFrom (k + 1) ds

theorem OffsetsFrom_of_proj_eq :
    ∀ (a b : List CharDecision) (k : Nat), a.map projCO = b.map projCO →
      OffsetsFrom k b → OffsetsFrom k a := by
  intro a
  induction a with
  | nil => intro b k h hb; trivial
  | cons x xs ih =>
    intro b k h hb
    cases b with
    | nil => cases h
    | cons y ys =>
      simp only [List.map_cons, List.cons.injEq] at h
      obtain ⟨h1, h2⟩ := h
      obtain ⟨hy, hys⟩ := hb
      refine ⟨?_, ih ys (k + 1) h2 hys⟩
      have : x.offset_in_token = y.offset_in_token := congrArg Prod.snd h1
      rw [this, hy]

theorem positionsOf_cons (d : CharDecision) (ds : List CharDecision)
    (target : Str) :
    positionsOf (d :: ds) target =
      (if ([d.char] : Str) == target then [d.offset_in_token] else []) ++
        positionsOf ds target := by
  unfold positionsOf
  rw [List.filterMap]
  by_cases hc : (([d.char] : Str) == target) = true
  · rw [if_pos hc, if_pos hc]
    rfl
  · rw [if_neg hc, if_neg hc]
    rfl

theorem positionsOf_ge :
    ∀ (decs : List CharDecision) (k : Nat) (target : Str),
      OffsetsFrom k decs → ∀ p ∈ positionsOf decs target, k ≤ p := by
  intro decs
  induction decs with
  | nil => intro k target _ p hp; cases hp
  | cons d ds ih =>
    intro k target hoff p hp
    obtain ⟨hd, hds⟩ := hoff
    rw [positionsOf_cons] at hp
    rw [List.mem_append] at hp
    rcases hp with hp | hp
    · by_cases hc : (([d.char] : Str) == target) = true
      · rw [if_pos hc] at hp
        simp only [List.mem_singleton] at hp
        omega
      · rw [if_neg hc] at hp
        cases hp
    · have := ih (k + 1) target hds p hp
      omega

theorem positionsOf_pairwise :
    ∀ (decs : List CharDecision) (k : Nat) (target : Str),
      OffsetsFrom k decs →
      (positionsOf decs target).Pairwise (· < ·) := by
  intro decs
  induction decs with
  | nil => intro k target _; exact List.Pairwise.nil
  | cons d ds ih =>
    intro k target hoff
    obtain ⟨hd, hds⟩ := hoff
    rw [positionsOf_cons]
    by_cases hc : (([d.char] : Str) == target) = true
    · rw [if_pos hc]
      refine List.Pairwise.cons ?_ (ih (k + 1) target hds)
      intro p hp
      have := positionsOf_ge ds (k + 1) target hds p hp
      omega
    · rw [if_neg hc]
      exact ih (k + 1) target hds

/-- Membership in `positionsOf` under offset coherence pins down the decision
at that index. -/
theorem positionsOf_char :
    ∀ (decs : List CharDecision) (target : Str),
      OffsetsFrom 0 decs → ∀ p ∈ positionsOf decs target,
      ∃ d, decs.get? p = some d ∧ ([d.char] : Str) = target := by
  have gen : ∀ (decs : List CharDecision) (k : Nat) (target : Str),
      OffsetsFrom k decs → ∀ p ∈ positionsOf decs target,
      ∃ i d, p = k + i ∧ decs.get? i = some d ∧ ([d.char] : Str) = target := by
    intro decs
    induction decs with
    | nil => intro k target _ p hp; cases hp
    | cons d ds ih =>
      intro k target hoff p hp
      obtain ⟨hd, hds⟩ := hoff
      rw [positionsOf_cons, List.mem_append] at hp
      rcases hp with hp | hp
      · by_cases hc : (([d.char] : Str) == target) = true
        · rw [if_pos hc] at hp
          simp only [List.mem_singleton] at hp
          exact ⟨0, d, by omega, rfl, by simpa using hc⟩
        · rw [if_neg hc] at hp
          cases hp
      · obtain ⟨i, d', h1, h2, h3⟩ := ih (k + 1) target hds p hp
        exact ⟨i + 1, d', by omega, h2, h3⟩
  intro decs target hoff p hp
  obtain ⟨i, d, h1, h2, h3⟩ := gen decs 0 target hoff p hp
  exact ⟨d, by rw [h1]; simpa using h2, h3⟩

theorem apply_at_none (rid choose target : Str) (tok : Token) (occ : Occ)
    (p : Nat) (decs : List CharDecision) (applied : List AppliedRule)
    (conflicts : List Conflict) (h : decs.get? p = none) :
    apply_at rid choose target tok occ p decs applied conflicts =
      (decs, applied, conflicts) := by
  unfold apply_at
  rw [h]

theorem apply_at_eq (rid choose target : Str) (tok : Token) (occ : Occ)
    (p : Nat) (decs : List CharDecision) (applied : List AppliedRule)
    (conflicts : List Conflict) (dp : CharDecision)
    (h : decs.get? p = some dp) :
    apply_at rid choose target tok occ p decs applied conflicts =
      (if ([dp.char] : Str) != target then (decs, applied, conflicts)
       else
        (decs.set p (applyAtDec rid choose dp),
         applied ++
           (if appliedBranchB rid choose dp then
             [appliedRec rid choose target tok occ] else []),
         conflicts ++
           (if conflictBranchB rid choose dp then
             [conflictRec rid choose target tok p dp] else []))) := by
  unfold apply_at
  rw [h]

theorem projCO_applyAtDec (rid choose : Str) (dec : CharDecision) :
    projCO (applyAtDec rid choose dec) = projCO dec := by
  unfold applyAtDec
  by_cases h1 : dec.chosen == choose
  · simp only [h1, if_true]; rfl
  · simp only [h1, Bool.false_eq_true, if_false]
    by_cases h2 : dec.resolved_by == ResolvedBy.override && ruleIdBlocks dec rid
    · simp only [h2, if_true]; rfl
    · simp only [h2, Bool.false_eq_true, if_false]; rfl

/-- `apply_at` on its target: the decision list is updated pointwise by
`applyAtDec`, and a conflict record is appended exactly on the conflict
branch. -/
theorem apply_at_hit (rid choose target : Str) (tok : Token) (occ : Occ)
    (pos : Nat) (decs : List CharDecision) (applied : List AppliedRule)
    (conflicts : List Conflict) (dec : CharDecision)
    (hdec : decs.get? pos = some dec) (hchar : ([dec.char] : Str) = target) :
    apply_at rid choose target tok occ pos decs applied conflicts =
      (decs.set pos (applyAtDec rid choose dec),
       applied ++
         (if appliedBranchB rid choose dec then
           [appliedRec rid choose target tok occ] else []),
       conflicts ++
         (if conflictBranchB rid choose dec then
           [conflictRec rid choose target tok pos dec] else [])) := by
  rw [apply_at_eq rid choose target tok occ pos decs applied conflicts dec
    hdec]
  rw [if_neg (by simp [hchar] : ¬(([dec.char] : Str) != target) = true)]

/-- `apply_at` elsewhere: the tracked index, the skeleton and the conflict
records at the tracked occurrence are untouched. -/
theorem apply_at_other (rid choose target : Str) (tok : Token) (occ : Occ)
    (p pos : Nat) (decs : List CharDecision) (applied : List AppliedRule)
    (conflicts : List Conflict) (hne : p ≠ pos) :
    (apply_at rid choose target tok occ p decs applied conflicts).1.get? pos =
      decs.get? pos ∧
    (apply_at rid choose target tok occ p decs applied conflicts).1.map projCO
      = decs.map projCO ∧
    ∀ (K : Nat × Nat),
      (apply_at rid choose target tok occ p decs applied
        conflicts).2.2.filter
          (fun c => c.token_start == K.1 && c.token_end == K.2 &&
            c.offset_in_token == pos) =
        conflicts.filter
          (fun c => c.token_start == K.1 && c.token_end == K.2 &&
            c.offset_in_token == pos) := by
  match hd : decs.get? p with
  | none =>
    rw [apply_at_none rid choose target tok occ p decs applied conflicts hd]
    exact ⟨rfl, rfl, fun K => rfl⟩
  | some dp =>
    have hset : ∀ (x : CharDecision), projCO x = projCO dp →
        (decs.set p x).get? pos = decs.get? pos ∧
        (decs.set p x).map projCO = decs.map projCO := by
      intro x hx
      refine ⟨get?_set_ne decs p pos x hne, ?_⟩
      rw [map_set, hx]
      exact set_same (decs.map projCO) p (projCO dp)
        (by rw [List.get?_map, hd]; rfl)
    have hpp : (p == pos) = false := by
      simpa using hne
    rw [apply_at_eq rid choose target tok occ p decs applied conflicts dp hd]
    by_cases hc : (([dp.char] : Str) != target) = true
    · rw [if_pos hc]
      exact ⟨rfl, rfl, fun K => rfl⟩
    · rw [if_neg hc]
      refine ⟨(hset _ (projCO_applyAtDec rid choose dp)).1,
        (hset _ (projCO_applyAtDec rid choose dp)).2, fun K => ?_⟩
      rw [List.filter_append]
      have hrec : List.filter
          (fun c => c.token_start == K.1 && c.token_end == K.2 &&
            c.offset_in_token == pos)
          (if conflictBranchB rid choose dp then
            [conflictRec rid choose target tok p dp] else []) =
          ([] : List Conflict) := by
        by_cases hb : conflictBranchB rid choose dp = true
        · rw [if_pos hb, List.filter_cons]
          have : ((conflictRec rid choose target tok p dp).token_start == K.1
              && (conflictRec rid choose target tok p dp).token_end == K.2
              && (conflictRec rid choose target tok p dp).offset_in_token
                == pos) = false := by
            show (_ && (p == pos)) = false
            rw [hpp, Bool.and_false]
          rw [this]
          simp
        · rw [if_neg hb]
          rfl
      rw [hrec, List.append_nil]

/-- The conflict records logged at one tracked occurrence. -/
def conflictsAtO (K : Nat × Nat) (pos : Nat) (cs : List Conflict) :
    List Conflict :=
  cs.filter fun c =>
    c.token_start == K.1 && c.token_end == K.2 && c.offset_in_token == pos

theorem conflictsAtO_append (K : Nat × Nat) (pos : Nat)
    (a b : List Conflict) :
    conflictsAtO K pos (a ++ b) =
      conflictsAtO K pos a ++ conflictsAtO K pos b := by
  simp [conflictsAtO]

/-- The occurrence selector dispatch of `_apply_overrides` selecting the
tracked position `pos`: either `"all"` with `pos` among the positions, or a
1-based in-range integer index pointing at `pos`. -/
def selects (occ : Occ) (positions : List Nat) (pos : Nat) : Prop :=
  (occ = .all ∧ pos ∈ positions) ∨
  (∃ k : Int, occ = .int k ∧ 1 ≤ k ∧ k ≤ (positions.length : Int) ∧
    positions.get? (k.toNat - 1) = some pos)

theorem fold_others (rid choose target : Str) (tok : Token) (occ : Occ)
    (K : Nat × Nat) (pos : Nat) :
    ∀ (Q : List Nat), pos ∉ Q →
    ∀ (decs : List CharDecision) (applied : List AppliedRule)
      (conflicts : List Conflict),
      (Q.foldl
        (fun st p => apply_at rid choose target tok occ p st.1 st.2.1 st.2.2)
        (decs, applied, conflicts)).1.get? pos = decs.get? pos ∧
      (Q.foldl
        (fun st p => apply_at rid choose target tok occ p st.1 st.2.1 st.2.2)
        (decs, applied, conflicts)).1.map projCO = decs.map projCO ∧
      conflictsAtO K pos
        (Q.foldl
          (fun st p =>
            apply_at rid choose target tok occ p st.1 st.2.1 st.2.2)
          (decs, applied, conflicts)).2.2 =
        conflictsAtO K pos conflicts := by
  intro Q
  induction Q with
  | nil => intro _ decs applied conflicts; exact ⟨rfl, rfl, rfl⟩
  | cons q Q ih =>
    intro hq decs applied conflicts
    have hqne : q ≠ pos := by
      intro h
      exact hq (h ▸ List.mem_cons_self q Q)
    have hq' : pos ∉ Q := fun h => hq (List.mem_cons_of_mem q h)
    obtain ⟨h1, h2, h3⟩ :=
      apply_at_other rid choose target tok occ q pos decs applied conflicts
        hqne
    rw [List.foldl_cons]
    have step := apply_at rid choose target tok occ q decs applied conflicts
    obtain ⟨g1, g2, g3⟩ := ih hq'
      (apply_at rid choose target tok occ q decs applied conflicts).1
      (apply_at rid choose target tok occ q decs applied conflicts).2.1
      (apply_at rid choose target tok occ q decs applied conflicts).2.2
    refine ⟨?_, ?_, ?_⟩
    · rw [g1, h1]
    · rw [g2, h2]
    · rw [g3]
      exact h3 K

theorem fold_positions_hit (rid choose target : Str) (tok : Token) (occ : Occ)
    (pos : Nat) (Q₁ Q₂ : List Nat) (decs : List CharDecision)
    (applied : List AppliedRule) (conflicts : List Conflict)
    (dec : CharDecision)
    (h1 : pos ∉ Q₁) (h2 : pos ∉ Q₂)
    (hdec : decs.get? pos = some dec) (hchar : ([dec.char] : Str) = target) :
    ((Q₁ ++ pos :: Q₂).foldl
      (fun st p => apply_at rid choose target tok occ p st.1 st.2.1 st.2.2)
      (decs, applied, conflicts)).1.get? pos =
        some (applyAtDec rid choose dec) ∧
    ((Q₁ ++ pos :: Q₂).foldl
      (fun st p => apply_at rid choose target tok occ p st.1 st.2.1 st.2.2)
      (decs, applied, conflicts)).1.map projCO = decs.map projCO ∧
    conflictsAtO (tok.start, tok.stop) pos
      ((Q₁ ++ pos :: Q₂).foldl
        (fun st p => apply_at rid choose target tok occ p st.1 st.2.1 st.2.2)
        (decs, applied, conflicts)).2.2 =
      conflictsAtO (tok.start, tok.stop) pos conflicts ++
        (if conflictBranchB rid choose dec then
          [conflictRec rid choose target tok pos dec] else []) := by
  have hsplit : (Q₁ ++ pos :: Q₂).foldl
      (fun st p => apply_at rid choose target tok occ p st.1 st.2.1 st.2.2)
      (decs, applied, conflicts) =
      Q₂.foldl
        (fun st p => apply_at rid choose target tok occ p st.1 st.2.1 st.2.2)
        (apply_at rid choose target tok occ pos
          (Q₁.foldl
            (fun st p =>
              apply_at rid choose target tok occ p st.1 st.2.1 st.2.2)
            (decs, applied, conflicts)).1
          (Q₁.foldl
            (fun st p =>
              apply_at rid choose target tok occ p st.1 st.2.1 st.2.2)
            (decs, applied, conflicts)).2.1
          (Q₁.foldl
            (fun st p =>
              apply_at rid choose target tok occ p st.1 st.2.1 st.2.2)
            (decs, applied, conflicts)).2.2) := by
    rw [List.foldl_append, List.foldl_cons]
  rw [hsplit]
  obtain ⟨f1, f2, f3⟩ := fold_others rid choose target tok occ
    (tok.start, tok.stop) pos Q₁ h1 decs applied conflicts
  have hdec1 := f1.trans hdec
  have hhit := apply_at_hit rid choose target tok occ pos
    (Q₁.foldl
      (fun st p => apply_at rid choose target tok occ p st.1 st.2.1 st.2.2)
      (decs, applied, conflicts)).1
    (Q₁.foldl
      (fun st p => apply_at rid choose target tok occ p st.1 st.2.1 st.2.2)
      (decs, applied, conflicts)).2.1
    (Q₁.foldl
      (fun st p => apply_at rid choose target tok occ p st.1 st.2.1 st.2.2)
      (decs, applied, conflicts)).2.2
    dec hdec1 hchar
  obtain ⟨g1, g2, g3⟩ := fold_others rid choose target tok occ
    (tok.start, tok.stop) pos Q₂ h2
    (apply_at rid choose target tok occ pos
      (Q₁.foldl
        (fun st p => apply_at rid choose target tok occ p st.1 st.2.1 st.2.2)
        (decs, applied, conflicts)).1
      (Q₁.foldl
        (fun st p => apply_at rid choose target tok occ p st.1 st.2.1 st.2.2)
        (decs, applied, conflicts)).2.1
      (Q₁.foldl
        (fun st p => apply_at rid choose target tok occ p st.1 st.2.1 st.2.2)
        (decs, applied, conflicts)).2.2).1
    (apply_at rid choose target tok occ pos
      (Q₁.foldl
        (fun st p => apply_at rid choose target tok occ p st.1 st.2.1 st.2.2)
        (decs, applied, conflicts)).1
      (Q₁.foldl
        (fun st p => apply_at rid choose target tok occ p st.1 st.2.1 st.2.2)
        (decs, applied, conflicts)).2.1
      (Q₁.foldl
        (fun st p => apply_at rid choose target tok occ p st.1 st.2.1 st.2.2)
        (decs, applied, conflicts)).2.2).2.1
    (apply_at rid choose target tok occ pos
      (Q₁.foldl
        (fun st p => apply_at rid choose target tok occ p st.1 st.2.1 st.2.2)
        (decs, applied, conflicts)).1
      (Q₁.foldl
        (fun st p => apply_at rid choose target tok occ p st.1 st.2.1 st.2.2)
        (decs, applied, conflicts)).2.1
      (Q₁.foldl
        (fun st p => apply_at rid choose target tok occ p st.1 st.2.1 st.2.2)
        (decs, applied, conflicts)).2.2).2.2
  refine ⟨?_, ?_, ?_⟩
  · rw [g1]
    have hA1 := congrArg Prod.fst hhit
    rw [hA1]
    exact get?_set_self _ pos (applyAtDec rid choose dec) dec hdec1
  · rw [g2]
    have hA1 := congrArg Prod.fst hhit
    rw [hA1]
    rw [map_set, projCO_applyAtDec]
    rw [set_same _ pos (projCO dec) (by rw [List.get?_map, hdec1]; rfl)]
    exact f2
  · rw [g3]
    have hA2 := congrArg (fun x => x.2.2) hhit
    simp only at hA2
    rw [hA2]
    rw [conflictsAtO_append, f3]
    by_cases hb : conflictBranchB rid choose dec = true
    · rw [if_pos hb]
      congr 1
      unfold conflictsAtO
      rw [List.filter_cons]
      have hpred : ((conflictRec rid choose target tok pos dec).token_start
          == tok.start &&
          (conflictRec rid choose target tok pos dec).token_end == tok.stop &&
          (conflictRec rid choose target tok pos dec).offset_in_token == pos)
          = true := by
        show (tok.start == tok.start && tok.stop == tok.stop &&
          (pos == pos)) = true
        simp
      rw [hpred]
      rfl
    · rw [if_neg hb]
      rfl

theorem applyOcc_all_eq (rid choose target : Str) (tok : Token)
    (positions : List Nat) (decs : List CharDecision)
    (applied : List AppliedRule) (conflicts : List Conflict) :
    applyOcc rid choose target tok .all positions decs applied conflicts =
      positions.foldl
        (fun st pos =>
          apply_at rid choose target tok .all pos st.1 st.2.1 st.2.2)
        (decs, applied, conflicts) := rfl

theorem applyOcc_int_eq (rid choose target : Str) (tok : Token) (k : Int)
    (positions : List Nat) (decs : List CharDecision)
    (applied : List AppliedRule) (conflicts : List Conflict) (pos : Nat)
    (hk : (1 ≤ k && k ≤ (positions.length : Int)) = true)
    (hget : positions.get? (k.toNat - 1) = some pos) :
    applyOcc rid choose target tok (.int k) positions decs applied conflicts =
      apply_at rid choose target tok (.int k) pos decs applied conflicts := by
  have hred : applyOcc rid choose target tok (.int k) positions decs applied
      conflicts =
      if (1 ≤ k && k ≤ (positions.length : Int)) = true then
        match positions.get? (k.toNat - 1) with
        | some pos =>
          apply_at rid choose target tok (.int k) pos decs applied conflicts
        | none => (decs, applied, conflicts)
      else (decs, applied, conflicts) := rfl
  rw [hred, if_pos hk, hget]

/-- A member of a strictly increasing list splits it with the member absent
from both sides. -/
theorem mem_decomp_pairwise (positions : List Nat) (pos : Nat)
    (hmem : pos ∈ positions) (hpw : positions.Pairwise (· < ·)) :
    ∃ Q₁ Q₂, positions = Q₁ ++ pos :: Q₂ ∧ pos ∉ Q₁ ∧ pos ∉ Q₂ := by
  obtain ⟨Q₁, Q₂, hsplit⟩ := List.append_of_mem hmem
  refine ⟨Q₁, Q₂, hsplit, ?_, ?_⟩
  · intro hin
    rw [hsplit, List.pairwise_append] at hpw
    exact absurd (hpw.2.2 pos hin pos (List.mem_cons_self pos Q₂))
      (lt_irrefl pos)
  · intro hin
    rw [hsplit, List.pairwise_append] at hpw
    have := (List.pairwise_cons.mp hpw.2.1).1 pos hin
    exact absurd this (lt_irrefl pos)

theorem selects_mem (occ : Occ) (positions : List Nat) (pos : Nat)
    (h : selects occ positions pos) : pos ∈ positions := by
  rcases h with ⟨_, hmem⟩ | ⟨k, _, _, _, hget⟩
  · exact hmem
  · exact List.get?_mem hget

/-- The occurrence dispatch at a selected position: the decision there is
updated by `applyAtDec`, the char/offset skeleton is untouched, and a conflict
record at the tracked occurrence appears exactly on the conflict branch. -/
theorem applyOcc_hit (rid choose target : Str) (tok : Token) (occ : Occ)
    (decs : List CharDecision) (applied : List AppliedRule)
    (conflicts : List Conflict) (pos : Nat) (dec : CharDecision)
    (hoff : OffsetsFrom 0 decs)
    (hsel : selects occ (positionsOf decs target) pos)
    (hdec : decs.get? pos = some dec) (hchar : ([dec.char] : Str) = target) :
    (applyOcc rid choose target tok occ (positionsOf decs target) decs applied
      conflicts).1.get? pos = some (applyAtDec rid choose dec) ∧
    (applyOcc rid choose target tok occ (positionsOf decs target) decs applied
      conflicts).1.map projCO = decs.map projCO ∧
    conflictsAtO (tok.start, tok.stop) pos
      (applyOcc rid choose target tok occ (positionsOf decs target) decs
        applied conflicts).2.2 =
      conflictsAtO (tok.start, tok.stop) pos conflicts ++
        (if conflictBranchB rid choose dec then
          [conflictRec rid choose target tok pos dec] else []) := by
  rcases hsel with ⟨hocc, hmem⟩ | ⟨k, hocc, hk1, hk2, hget⟩
  · subst hocc
    obtain ⟨Q₁, Q₂, hsplit, hn1, hn2⟩ := mem_decomp_pairwise
      (positionsOf decs target) pos hmem
      (positionsOf_pairwise decs 0 target hoff)
    rw [applyOcc_all_eq, hsplit]
    exact fold_positions_hit rid choose target tok .all pos Q₁ Q₂ decs applied
      conflicts dec hn1 hn2 hdec hchar
  · subst hocc
    have hk : (1 ≤ k && k ≤ ((positionsOf decs target).length : Int))
        = true := by
      rw [Bool.and_eq_true]
      exact ⟨decide_eq_true hk1, decide_eq_true hk2⟩
    rw [applyOcc_int_eq rid choose target tok k (positionsOf decs target) decs
      applied conflicts pos hk hget]
    have h := fold_positions_hit rid choose target tok (.int k) pos [] [] decs
      applied conflicts dec (by simp) (by simp) hdec hchar
    exact h

/-- On a decision that does not yet carry an override, `apply_at` installs the
rule's value, provenance and id (the reaffirm branch keeps an already-equal
value, which is the rule's value). -/
theorem applyAtDec_nonoverride (rid c : Str) (dec : CharDecision)
    (h : dec.resolved_by ≠ ResolvedBy.override) :
    (applyAtDec rid c dec).chosen = c ∧
    (applyAtDec rid c dec).resolved_by = ResolvedBy.override ∧
    (applyAtDec rid c dec).rule_id = some rid := by
  unfold applyAtDec
  by_cases h1 : (dec.chosen == c) = true
  · rw [if_pos h1]
    exact ⟨eq_of_beq h1, rfl, rfl⟩
  · rw [if_neg h1]
    have h2 : (dec.resolved_by == ResolvedBy.override && ruleIdBlocks dec rid)
        = false := by
      have : (dec.resolved_by == ResolvedBy.override) = false := by
        simpa using h
      rw [this, Bool.false_and]
    rw [if_neg (by simp [h2])]
    exact ⟨rfl, rfl, rfl⟩

/-- On the conflict branch, `apply_at` only sets the conflict flag. -/
theorem applyAtDec_conflict (rid c : Str) (dec : CharDecision)
    (h : conflictBranchB rid c dec = true) :
    applyAtDec rid c dec = { dec with conflict := true } := by
  unfold conflictBranchB at h
  rw [Bool.and_eq_true] at h
  obtain ⟨h1, h2⟩ := h
  unfold applyAtDec
  rw [if_neg (by simp only [bne] at h1; simp [Bool.not_eq_true'] at h1; simp [h1]),
    if_pos h2]

theorem conflictBranchB_false_of_nonoverride (rid c : Str)
    (dec : CharDecision) (h : dec.resolved_by ≠ ResolvedBy.override) :
    conflictBranchB rid c dec = false := by
  unfold conflictBranchB
  have : (dec.resolved_by == ResolvedBy.override) = false := by simpa using h
  rw [this, Bool.false_and, Bool.and_false]

theorem isEmpty_false_of_get? {α : Type} (l : List α) (p : Nat) (x : α)
    (h : l.get? p = some x) : l.isEmpty = false := by
  cases l with
  | nil => simp at h
  | cons a as => rfl

theorem isEmpty_false_of_mem {α : Type} (l : List α) (x : α) (h : x ∈ l) :
    l.isEmpty = false := by
  cases l with
  | nil => cases h
  | cons a as => rfl

theorem isEmpty_false_of_ne_nil (l : Str) (h : l ≠ []) :
    l.isEmpty = false := by
  cases l with
  | nil => exact absurd rfl h
  | cons a as => rfl

theorem lookupDecs_single (K : Nat × Nat) (v : List CharDecision) :
    lookupDecs [(K, v)] K = some v := by
  unfold lookupDecs
  rw [List.find?_cons_of_pos _ (by simp)]
  rfl

theorem setDecs_single (K : Nat × Nat) (v w : List CharDecision) :
    setDecs [(K, v)] K w = [(K, w)] := by
  unfold setDecs
  rw [if_pos (by simp)]

/-- A single token is visited once, with no neighbours. -/
theorem visits_single (tok : Token) : visits [tok] = [(tok, none, none)] := rfl

theorem ruleKeyLe_of_priority (r1 r2 : RuleJ) (p1 p2 : Int)
    (h1 : r1.priority = some p1) (h2 : r2.priority = some p2)
    (hlt : p2 < p1) :
    ruleKeyLe r1 r2 = true ∧ ruleKeyLe r2 r1 = false := by
  constructor
  · unfold ruleKeyLe ruleKey
    rw [h1, h2]
    rw [if_pos (by simp only [Option.getD_some]; omega)]
  · unfold ruleKeyLe ruleKey
    rw [h1, h2]
    rw [if_neg (by simp only [Option.getD_some]; omega),
      if_pos (by simp only [Option.getD_some]; omega)]

theorem strLe_antisymm : ∀ (a b : Str), strLe a b = true →
    strLe b a = true → a = b := by
  intro a
  induction a with
  | nil =>
    intro b h1 h2
    cases b with
    | nil => rfl
    | cons y ys => rw [strLe] at h2; cases h2
  | cons x xs ih =>
    intro b h1 h2
    cases b with
    | nil => rw [strLe] at h1; cases h1
    | cons y ys =>
      rw [strLe] at h1 h2
      by_cases hxy : x.toNat < y.toNat
      · rw [if_neg (by omega), if_pos hxy] at h2
        cases h2
      · by_cases hyx : y.toNat < x.toNat
        · rw [if_neg hxy, if_pos hyx] at h1
          cases h1
        · rw [if_neg hxy, if_neg hyx] at h1
          rw [if_neg hyx, if_neg hxy] at h2
          have h3 : x.toNat = y.toNat := by omega
          have hchar : x = y := Char.ext (UInt32.ext h3)
          rw [hchar, ih ys h1 h2]

/-- Equal priorities with the first id lexicographically earlier also put the
two keys in strict order. -/
theorem ruleKeyLe_of_lex (r1 r2 : RuleJ) (p1 p2 : Int) (i1 i2 : Str)
    (h1 : r1.priority = some p1) (h2 : r2.priority = some p2)
    (hpe : p1 = p2) (hid1 : r1.id = some i1) (hid2 : r2.id = some i2)
    (hlex : strLe i1 i2 = true) (hne : i1 ≠ i2) :
    ruleKeyLe r1 r2 = true ∧ ruleKeyLe r2 r1 = false := by
  have hlex2 : strLe i2 i1 = false := by
    cases hx : strLe i2 i1
    · rfl
    · exact absurd (strLe_antisymm i1 i2 hlex hx) hne
  subst hpe
  constructor
  · unfold ruleKeyLe ruleKey
    rw [h1, h2, hid1, hid2]
    rw [if_neg (by simp only [Option.getD_some]; omega),
      if_neg (by simp only [Option.getD_some]; omega)]
    exact hlex
  · unfold ruleKeyLe ruleKey
    rw [h1, h2, hid1, hid2]
    rw [if_neg (by simp only [Option.getD_some]; omega),
      if_neg (by simp only [Option.getD_some]; omega)]
    exact hlex2

/-- Under a strict key order between the two rules, both storage orders sort
to the same list. -/
theorem sort_rules_two (r1 r2 : RuleJ)
    (h12 : ruleKeyLe r1 r2 = true) (h21 : ruleKeyLe r2 r1 = false) :
    sort_rules [r1, r2] = [r1, r2] ∧ sort_rules [r2, r1] = [r1, r2] := by
  constructor
  · show insertSorted r2 (insertSorted r1 []) = [r1, r2]
    show insertSorted r2 [r1] = [r1, r2]
    unfold insertSorted
    rw [if_pos h12]
    rfl
  · show insertSorted r1 (insertSorted r2 []) = [r1, r2]
    show insertSorted r1 [r2] = [r1, r2]
    unfold insertSorted
    rw [if_neg (by simp [h21])]

/-- The rule pass with all rule-level guards passing. -/
theorem applyRule_eq (regexSearch : Str → Str → Bool) (rule : RuleJ)
    (tokens : List Token) (st : OvState) (target : Str) (occ : Occ)
    (craw rid : Str)
    (hR : rule.target = some { char := some target, occurrence := occ })
    (hc : rule.choose = some craw) (hid : rule.id = some rid)
    (hne : target.isEmpty = false) :
    applyRule regexSearch rule tokens st =
      (visits tokens).foldl
        (fun s v =>
          applyRuleToToken regexSearch rid (normalize_pinyin craw) target occ
            rule v.1 v.2.1 v.2.2 s)
        st := by
  unfold applyRule
  rw [hR, hc, hid]
  show (if target.isEmpty = true then st else _) = _
  rw [if_neg (by simp [hne])]

/-- The token-loop body with all token-level guards passing. -/
theorem applyRuleToToken_eq (regexSearch : Str → Str → Bool)
    (rid choose target : Str) (occ : Occ) (rule : RuleJ) (tok : Token)
    (prevTok nextTok : Option Token) (st : OvState)
    (decs : List CharDecision)
    (hcont : containsSub tok.text target = true)
    (hm : rule_matches regexSearch rule tok prevTok nextTok = true)
    (hlk : lookupDecs st.decMap (tok.start, tok.stop) = some decs) :
    applyRuleToToken regexSearch rid choose target occ rule tok prevTok
      nextTok st = applyRuleToTokenBody rid choose target occ tok st decs := by
  unfold applyRuleToToken
  rw [if_neg (by simp [hcont]), if_neg (by simp [hm]), hlk]

/-- The post-lookup body with a non-empty decision list and a non-empty
position list. -/
theorem applyRuleToTokenBody_eq (rid choose target : Str) (occ : Occ)
    (tok : Token) (st : OvState) (decs : List CharDecision)
    (hde : decs.isEmpty = false)
    (hpe : (positionsOf decs target).isEmpty = false) :
    applyRuleToTokenBody rid choose target occ tok st decs =
      { decMap := setDecs st.decMap (tok.start, tok.stop)
          (applyOcc rid choose target tok occ (positionsOf decs target) decs
            st.applied st.conflicts).1,
        applied := (applyOcc rid choose target tok occ
          (positionsOf decs target) decs st.applied st.conflicts).2.1,
        conflicts := (applyOcc rid choose target tok occ
          (positionsOf decs target) decs st.applied st.conflicts).2.2 } := by
  unfold applyRuleToTokenBody
  rw [if_neg (by simp [hde]), if_neg (by simp [hpe])]

theorem ruleIdBlocks_some (dec : CharDecision) (r0 rid : Str)
    (h : dec.rule_id = some r0) :
    ruleIdBlocks dec rid = (!r0.isEmpty && r0 != rid) := by
  unfold ruleIdBlocks
  rw [h]

/-- The two-rule scenario behind C4 and C5: one token; at a selected
occurrence a decision that does not yet carry an override; two rules of
which the first is applied first — strictly higher priority, or equal
priority with the lexicographically earlier id — carrying a non-empty id
different from the other's, both matching the token and selecting the
occurrence, with distinct normalized replacement values.  In either storage
order the first-applied value is installed first and retained, and the
other rule records exactly one conflict at the occurrence. -/
theorem two_rule_outcome (regexSearch : Str → Str → Bool) (tok : Token)
    (decs : List CharDecision) (pos : Nat) (dec : CharDecision)
    (target : Str) (occ1 occ2 : Occ) (r1 r2 : RuleJ)
    (i1 i2 c1raw c2raw : Str) (p1 p2 : Int) (rules : List RuleJ)
    (hr1t : r1.target = some { char := some target, occurrence := occ1 })
    (hr1c : r1.choose = some c1raw) (hr1i : r1.id = some i1)
    (hr1p : r1.priority = some p1)
    (hr2t : r2.target = some { char := some target, occurrence := occ2 })
    (hr2c : r2.choose = some c2raw) (hr2i : r2.id = some i2)
    (hr2p : r2.priority = some p2)
    (hord : p2 < p1 ∨ (p1 = p2 ∧ strLe i1 i2 = true))
    (hi1ne : i1 ≠ []) (hi12 : i1 ≠ i2)
    (hcc : normalize_pinyin c1raw ≠ normalize_pinyin c2raw)
    (htne : target ≠ [])
    (hcont : containsSub tok.text target = true)
    (hm1 : rule_matches regexSearch r1 tok none none = true)
    (hm2 : rule_matches regexSearch r2 tok none none = true)
    (hoff : OffsetsFrom 0 decs)
    (hdec : decs.get? pos = some dec) (hchar : ([dec.char] : Str) = target)
    (hres : dec.resolved_by ≠ ResolvedBy.override)
    (hsel1 : selects occ1 (positionsOf decs target) pos)
    (hsel2 : selects occ2 (positionsOf decs target) pos)
    (horder : rules = [r1, r2] ∨ rules = [r2, r1]) :
    ∃ decs' d',
      lookupDecs (_apply_overrides regexSearch [tok]
        [((tok.start, tok.stop), decs)] rules).2.2 (tok.start, tok.stop) =
          some decs' ∧
      decs'.get? pos = some d' ∧
      d'.chosen = normalize_pinyin c1raw ∧
      d'.rule_id = some i1 ∧
      conflictsAtO (tok.start, tok.stop) pos
        (_apply_overrides regexSearch [tok]
          [((tok.start, tok.stop), decs)] rules).2.1 =
        [{ token_text := tok.text, token_start := tok.start,
           token_end := tok.stop, char := target, offset_in_token := pos,
           existing_rule_id := i1,
           existing_choose := normalize_pinyin c1raw,
           new_rule_id := i2,
           new_choose := normalize_pinyin c2raw }] := by
  have hkeys : ruleKeyLe r1 r2 = true ∧ ruleKeyLe r2 r1 = false := by
    rcases hord with hplt | ⟨hpe, hlex⟩
    · exact ruleKeyLe_of_priority r1 r2 p1 p2 hr1p hr2p hplt
    · exact ruleKeyLe_of_lex r1 r2 p1 p2 i1 i2 hr1p hr2p hpe hr1i hr2i hlex
        hi12
  obtain ⟨hk12, hk21⟩ := hkeys
  obtain ⟨hso1, hso2⟩ := sort_rules_two r1 r2 hk12 hk21
  have hsorted : sort_rules (rules.filter fun r => r.id.isSome) =
      [r1, r2] := by
    rcases horder with h | h <;> subst h
    · have hf : ([r1, r2].filter fun r => r.id.isSome) = [r1, r2] := by
        simp [List.filter_cons, hr1i, hr2i]
      rw [hf]; exact hso1
    · have hf : ([r2, r1].filter fun r => r.id.isSome) = [r2, r1] := by
        simp [List.filter_cons, hr1i, hr2i]
      rw [hf]; exact hso2
  have hov : ov_states regexSearch [tok] [((tok.start, tok.stop), decs)]
      rules =
      applyRule regexSearch r2 [tok]
        (applyRule regexSearch r1 [tok]
          { decMap := [((tok.start, tok.stop), decs)], applied := [],
            conflicts := [] }) := by
    unfold ov_states
    rw [hsorted]
    rfl
  have htne' : target.isEmpty = false := isEmpty_false_of_ne_nil target htne
  have hde : decs.isEmpty = false := isEmpty_false_of_get? decs pos dec hdec
  have hpmem : pos ∈ positionsOf decs target :=
    selects_mem occ1 (positionsOf decs target) pos hsel1
  have hpe : (positionsOf decs target).isEmpty = false :=
    isEmpty_false_of_mem (positionsOf decs target) pos hpmem
  have hpass1 : applyRule regexSearch r1 [tok]
      { decMap := [((tok.start, tok.stop), decs)], applied := [],
        conflicts := [] } =
      { decMap := [((tok.start, tok.stop),
          (applyOcc i1 (normalize_pinyin c1raw) target tok occ1
            (positionsOf decs target) decs [] []).1)],
        applied := (applyOcc i1 (normalize_pinyin c1raw) target tok occ1
          (positionsOf decs target) decs [] []).2.1,
        conflicts := (applyOcc i1 (normalize_pinyin c1raw) target tok occ1
          (positionsOf decs target) decs [] []).2.2 } := by
    rw [applyRule_eq regexSearch r1 [tok] _ target occ1 c1raw i1 hr1t hr1c
      hr1i htne']
    rw [visits_single]
    show applyRuleToToken regexSearch i1 (normalize_pinyin c1raw) target occ1
      r1 tok none none
      { decMap := [((tok.start, tok.stop), decs)], applied := [],
        conflicts := [] } = _
    rw [applyRuleToToken_eq regexSearch i1 (normalize_pinyin c1raw) target
      occ1 r1 tok none none _ decs hcont hm1
      (lookupDecs_single (tok.start, tok.stop) decs)]
    rw [applyRuleToTokenBody_eq i1 (normalize_pinyin c1raw) target occ1 tok _
      decs hde hpe]
    rw [setDecs_single]
  obtain ⟨o1a, o1b, o1c⟩ := applyOcc_hit i1 (normalize_pinyin c1raw) target
    tok occ1 decs [] [] pos dec hoff hsel1 hdec hchar
  have hcb1 : conflictBranchB i1 (normalize_pinyin c1raw) dec = false :=
    conflictBranchB_false_of_nonoverride i1 (normalize_pinyin c1raw) dec hres
  have o1c' : conflictsAtO (tok.start, tok.stop) pos
      (applyOcc i1 (normalize_pinyin c1raw) target tok occ1
        (positionsOf decs target) decs [] []).2.2 = [] := by
    rw [o1c, hcb1]
    rfl
  have hposeq : positionsOf
      (applyOcc i1 (normalize_pinyin c1raw) target tok occ1
        (positionsOf decs target) decs [] []).1 target =
      positionsOf decs target := positionsOf_of_proj_eq target o1b
  have hoff1 : OffsetsFrom 0
      (applyOcc i1 (normalize_pinyin c1raw) target tok occ1
        (positionsOf decs target) decs [] []).1 :=
    OffsetsFrom_of_proj_eq _ decs 0 o1b hoff
  obtain ⟨hch1, hrb1, hri1⟩ :=
    applyAtDec_nonoverride i1 (normalize_pinyin c1raw) dec hres
  have hchar1 : ([(applyAtDec i1 (normalize_pinyin c1raw) dec).char] : Str)
      = target := by
    have hc : (applyAtDec i1 (normalize_pinyin c1raw) dec).char = dec.char :=
      congrArg Prod.fst (projCO_applyAtDec i1 (normalize_pinyin c1raw) dec)
    rw [hc, hchar]
  have hcb2 : conflictBranchB i2 (normalize_pinyin c2raw)
      (applyAtDec i1 (normalize_pinyin c1raw) dec) = true := by
    unfold conflictBranchB
    rw [hch1, hrb1,
      ruleIdBlocks_some (applyAtDec i1 (normalize_pinyin c1raw) dec) i1 i2
        hri1]
    rw [Bool.and_eq_true, Bool.and_eq_true, Bool.and_eq_true]
    refine ⟨?_, ?_, ?_, ?_⟩
    · exact bne_iff_ne.mpr hcc
    · rfl
    · rw [isEmpty_false_of_ne_nil i1 hi1ne]; rfl
    · exact bne_iff_ne.mpr hi12
  have hsel2' : selects occ2
      (positionsOf
        (applyOcc i1 (normalize_pinyin c1raw) target tok occ1
          (positionsOf decs target) decs [] []).1 target) pos := by
    rw [hposeq]; exact hsel2
  obtain ⟨o2a, o2b, o2c⟩ := applyOcc_hit i2 (normalize_pinyin c2raw) target
    tok occ2
    (applyOcc i1 (normalize_pinyin c1raw) target tok occ1
      (positionsOf decs target) decs [] []).1
    (applyOcc i1 (normalize_pinyin c1raw) target tok occ1
      (positionsOf decs target) decs [] []).2.1
    (applyOcc i1 (normalize_pinyin c1raw) target tok occ1
      (positionsOf decs target) decs [] []).2.2
    pos (applyAtDec i1 (normalize_pinyin c1raw) dec) hoff1 hsel2' o1a hchar1
  have hde1 : (applyOcc i1 (normalize_pinyin c1raw) target tok occ1
      (positionsOf decs target) decs [] []).1.isEmpty = false :=
    isEmpty_false_of_get? _ pos _ o1a
  have hpe1 : (positionsOf
      (applyOcc i1 (normalize_pinyin c1raw) target tok occ1
        (positionsOf decs target) decs [] []).1 target).isEmpty = false := by
    rw [hposeq]; exact hpe
  have hpass2 : applyRule regexSearch r2 [tok]
      { decMap := [((tok.start, tok.stop),
          (applyOcc i1 (normalize_pinyin c1raw) target tok occ1
            (positionsOf decs target) decs [] []).1)],
        applied := (applyOcc i1 (normalize_pinyin c1raw) target tok occ1
          (positionsOf decs target) decs [] []).2.1,
        conflicts := (applyOcc i1 (normalize_pinyin c1raw) target tok occ1
          (positionsOf decs target) decs [] []).2.2 } =
      { decMap := [((tok.start, tok.stop),
          (applyOcc i2 (normalize_pinyin c2raw) target tok occ2
            (positionsOf
              (applyOcc i1 (normalize_pinyin c1raw) target tok occ1
                (positionsOf decs target) decs [] []).1 target)
            (applyOcc i1 (normalize_pinyin c1raw) target tok occ1
              (positionsOf decs target) decs [] []).1
            (applyOcc i1 (normalize_pinyin c1raw) target tok occ1
              (positionsOf decs target) decs [] []).2.1
            (applyOcc i1 (normalize_pinyin c1raw) target tok occ1
              (positionsOf decs target) decs [] []).2.2).1)],
        applied := (applyOcc i2 (normalize_pinyin c2raw) target tok occ2
          (positionsOf
            (applyOcc i1 (normalize_pinyin c1raw) target tok occ1
              (positionsOf decs target) decs [] []).1 target)
          (applyOcc i1 (normalize_pinyin c1raw) target tok occ1
            (positionsOf decs target) decs [] []).1
          (applyOcc i1 (normalize_pinyin c1raw) target tok occ1
            (positionsOf decs target) decs [] []).2.1
          (applyOcc i1 (normalize_pinyin c1raw) target tok occ1
            (positionsOf decs target) decs [] []).2.2).2.1,
        conflicts := (applyOcc i2 (normalize_pinyin c2raw) target tok occ2
          (positionsOf
            (applyOcc i1 (normalize_pinyin c1raw) target tok occ1
              (positionsOf decs target) decs [] []).1 target)
          (applyOcc i1 (normalize_pinyin c1raw) target tok occ1
            (positionsOf decs target) decs [] []).1
          (applyOcc i1 (normalize_pinyin c1raw) target tok occ1
            (positionsOf decs target) decs [] []).2.1
          (applyOcc i1 (normalize_pinyin c1raw) target tok occ1
            (positionsOf decs target) decs [] []).2.2).2.2 } := by
    rw [applyRule_eq regexSearch r2 [tok] _ target occ2 c2raw i2 hr2t hr2c
      hr2i htne']
    rw [visits_single]
    show applyRuleToToken regexSearch i2 (normalize_pinyin c2raw) target occ2
      r2 tok none none _ = _
    rw [applyRuleToToken_eq regexSearch i2 (normalize_pinyin c2raw) target
      occ2 r2 tok none none _
      (applyOcc i1 (normalize_pinyin c1raw) target tok occ1
        (positionsOf decs target) decs [] []).1
      hcont hm2
      (lookupDecs_single (tok.start, tok.stop) _)]
    rw [applyRuleToTokenBody_eq i2 (normalize_pinyin c2raw) target occ2 tok _
      _ hde1 hpe1]
    rw [setDecs_single]
  refine ⟨(applyOcc i2 (normalize_pinyin c2raw) target tok occ2
      (positionsOf
        (applyOcc i1 (normalize_pinyin c1raw) target tok occ1
          (positionsOf decs target) decs [] []).1 target)
      (applyOcc i1 (normalize_pinyin c1raw) target tok occ1
        (positionsOf decs target) decs [] []).1
      (applyOcc i1 (normalize_pinyin c1raw) target tok occ1
        (positionsOf decs target) decs [] []).2.1
      (applyOcc i1 (normalize_pinyin c1raw) target tok occ1
        (positionsOf decs target) decs [] []).2.2).1,
    applyAtDec i2 (normalize_pinyin c2raw)
      (applyAtDec i1 (normalize_pinyin c1raw) dec), ?_, ?_, ?_, ?_, ?_⟩
  · show lookupDecs (ov_states regexSearch [tok]
      [((tok.start, tok.stop), decs)] rules).decMap (tok.start, tok.stop) = _
    rw [hov, hpass1, hpass2]
    exact lookupDecs_single (tok.start, tok.stop) _
  · exact o2a
  · rw [applyAtDec_conflict i2 (normalize_pinyin c2raw)
      (applyAtDec i1 (normalize_pinyin c1raw) dec) hcb2]
    exact hch1
  · rw [applyAtDec_conflict i2 (normalize_pinyin c2raw)
      (applyAtDec i1 (normalize_pinyin c1raw) dec) hcb2]
    exact hri1
  · show conflictsAtO (tok.start, tok.stop) pos
      (ov_states regexSearch [tok]
        [((tok.start, tok.stop), decs)] rules).conflicts = _
    rw [hov, hpass1, hpass2]
    show conflictsAtO (tok.start, tok.stop) pos
      (applyOcc i2 (normalize_pinyin c2raw) target tok occ2
        (positionsOf
          (applyOcc i1 (normalize_pinyin c1raw) target tok occ1
            (positionsOf decs target) decs [] []).1 target)
        (applyOcc i1 (normalize_pinyin c1raw) target tok occ1
          (positionsOf decs target) decs [] []).1
        (applyOcc i1 (normalize_pinyin c1raw) target tok occ1
          (positionsOf decs target) decs [] []).2.1
        (applyOcc i1 (normalize_pinyin c1raw) target tok occ1
          (positionsOf decs target) decs [] []).2.2).2.2 = _
    rw [o2c, o1c', if_pos hcb2]
    unfold conflictRec
    rw [hri1, hch1]
    rfl

/-- C4 (amended).  Override rules are processed in the deterministic order
priority descending then id ascending; for two rules with different
priorities that both match the same character occurrence with different
normalized replacement values, PROVIDED the higher-priority rule's id is
non-empty and differs from the other rule's id, the higher-priority rule's
value is the final chosen value at that occurrence, for both storage
orders.  (Without the id proviso the code lets the lower-priority rule
overwrite the value: see the counterexample.) -/
theorem c4_priority_amended (regexSearch : Str → Str → Bool) (tok : Token)
    (decs : List CharDecision) (pos : Nat) (dec : CharDecision)
    (target : Str) (occ1 occ2 : Occ) (r1 r2 : RuleJ)
    (i1 i2 c1raw c2raw : Str) (p1 p2 : Int) (rules : List RuleJ)
    (hr1t : r1.target = some { char := some target, occurrence := occ1 })
    (hr1c : r1.choose = some c1raw) (hr1i : r1.id = some i1)
    (hr1p : r1.priority = some p1)
    (hr2t : r2.target = some { char := some target, occurrence := occ2 })
    (hr2c : r2.choose = some c2raw) (hr2i : r2.id = some i2)
    (hr2p : r2.priority = some p2)
    (hplt : p2 < p1)
    (hi1ne : i1 ≠ []) (hi12 : i1 ≠ i2)
    (hcc : normalize_pinyin c1raw ≠ normalize_pinyin c2raw)
    (htne : target ≠ [])
    (hcont : containsSub tok.text target = true)
    (hm1 : rule_matches regexSearch r1 tok none none = true)
    (hm2 : rule_matches regexSearch r2 tok none none = true)
    (hoff : OffsetsFrom 0 decs)
    (hdec : decs.get? pos = some dec) (hchar : ([dec.char] : Str) = target)
    (hres : dec.resolved_by ≠ ResolvedBy.override)
    (hsel1 : selects occ1 (positionsOf decs target) pos)
    (hsel2 : selects occ2 (positionsOf decs target) pos)
    (horder : rules = [r1, r2] ∨ rules = [r2, r1]) :
    ∃ decs' d',
      lookupDecs (_apply_overrides regexSearch [tok]
        [((tok.start, tok.stop), decs)] rules).2.2 (tok.start, tok.stop) =
          some decs' ∧
      decs'.get? pos = some d' ∧
      d'.chosen = normalize_pinyin c1raw ∧
      d'.rule_id = some i1 := by
  obtain ⟨decs', d', h1, h2, h3, h4, _⟩ := two_rule_outcome regexSearch tok
    decs pos dec target occ1 occ2 r1 r2 i1 i2 c1raw c2raw p1 p2 rules hr1t
    hr1c hr1i hr1p hr2t hr2c hr2i hr2p (Or.inl hplt) hi1ne hi12 hcc htne hcont hm1 hm2
    hoff hdec hchar hres hsel1 hsel2 horder
  exact ⟨decs', d', h1, h2, h3, h4⟩

/-- C5 (amended).  With two rules matching the same occurrence and
disagreeing on the normalized value — the first-applied being the one with
the strictly higher priority, or at equal priority the one with the
lexicographically earlier id — PROVIDED the first-applied rule's id is
non-empty and differs from the other's, exactly one conflict record is
logged at that occurrence — carrying the existing rule id and value and the
new rule id and value — and the chosen value remains the first-applied
rule's value.  (Without the id proviso no conflict is logged and the value
is overwritten: see the counterexample.) -/
theorem c5_conflict_amended (regexSearch : Str → Str → Bool) (tok : Token)
    (decs : List CharDecision) (pos : Nat) (dec : CharDecision)
    (target : Str) (occ1 occ2 : Occ) (r1 r2 : RuleJ)
    (i1 i2 c1raw c2raw : Str) (p1 p2 : Int) (rules : List RuleJ)
    (hr1t : r1.target = some { char := some target, occurrence := occ1 })
    (hr1c : r1.choose = some c1raw) (hr1i : r1.id = some i1)
    (hr1p : r1.priority = some p1)
    (hr2t : r2.target = some { char := some target, occurrence := occ2 })
    (hr2c : r2.choose = some c2raw) (hr2i : r2.id = some i2)
    (hr2p : r2.priority = some p2)
    (hord : p2 < p1 ∨ (p1 = p2 ∧ strLe i1 i2 = true))
    (hi1ne : i1 ≠ []) (hi12 : i1 ≠ i2)
    (hcc : normalize_pinyin c1raw ≠ normalize_pinyin c2raw)
    (htne : target ≠ [])
    (hcont : containsSub tok.text target = true)
    (hm1 : rule_matches regexSearch r1 tok none none = true)
    (hm2 : rule_matches regexSearch r2 tok none none = true)
    (hoff : OffsetsFrom 0 decs)
    (hdec : decs.get? pos = some dec) (hchar : ([dec.char] : Str) = target)
    (hres : dec.resolved_by ≠ ResolvedBy.override)
    (hsel1 : selects occ1 (positionsOf decs target) pos)
    (hsel2 : selects occ2 (positionsOf decs target) pos)
    (horder : rules = [r1, r2] ∨ rules = [r2, r1]) :
    ∃ decs' d',
      lookupDecs (_apply_overrides regexSearch [tok]
        [((tok.start, tok.stop), decs)] rules).2.2 (tok.start, tok.stop) =
          some decs' ∧
      decs'.get? pos = some d' ∧
      d'.chosen = normalize_pinyin c1raw ∧
      conflictsAtO (tok.start, tok.stop) pos
        (_apply_overrides regexSearch [tok]
          [((tok.start, tok.stop), decs)] rules).2.1 =
        [{ token_text := tok.text, token_start := tok.start,
           token_end := tok.stop, char := target, offset_in_token := pos,
           existing_rule_id := i1,
           existing_choose := normalize_pinyin c1raw,
           new_rule_id := i2,
           new_choose := normalize_pinyin c2raw }] := by
  obtain ⟨decs', d', h1, h2, h3, _, h5⟩ := two_rule_outcome regexSearch tok
    decs pos dec target occ1 occ2 r1 r2 i1 i2 c1raw c2raw p1 p2 rules hr1t
    hr1c hr1i hr1p hr2t hr2c hr2i hr2p hord hi1ne hi12 hcc htne hcont hm1 hm2
    hoff hdec hchar hres hsel1 hsel2 horder
  exact ⟨decs', d', h1, h2, h3, h5⟩

def rsNone : Str → Str → Bool := fun _ _ => false

def ovTok : Token :=
  { span_id := 0, index_in_span := 0, start := 0, stop := 1,
    text := ['行'], upos := ['X'], xpos := ['U', 'N', 'K'], ner := ['O'] }

def ovDec0 : CharDecision :=
  { char := '行', offset_in_token := 0,
    candidates := [['h', 'á', 'n', 'g'], ['x', 'í', 'n', 'g']],
    chosen := ['h', 'á', 'n', 'g'], resolved_by := .fallback,
    needs_review := true }

/-- Higher-priority rule whose id is the empty string (a legal value: the
parser only requires `isinstance(rid, str)`). -/
def c4r1 : RuleJ :=
  { id := some [], priority := some 10,
    target := some { char := some ['行'], occurrence := .int 1 },
    choose := some ['x', 'í', 'n', 'g'] }

def c4r2 : RuleJ :=
  { id := some ['x'], priority := some 1,
    target := some { char := some ['行'], occurrence := .int 1 },
    choose := some ['h', 'à', 'n', 'g'] }

/-- The decision after both counterexample rules ran: the lower-priority
rule's value and id were installed over the higher-priority rule's. -/
def c4dBad : CharDecision :=
  { char := '行', offset_in_token := 0,
    candidates := [['h', 'á', 'n', 'g'], ['x', 'í', 'n', 'g']],
    chosen := ['h', 'à', 'n', 'g'], resolved_by := .override,
    rule_id := some ['x'], needs_review := false }

/-- Counterexample to C4 as stated: two rules with priorities 10 and 1 both
match the first occurrence of `行` with different replacement values, but the
higher-priority rule's id is the empty string, so after it applies, the
lower-priority rule's `dec.rule_id and dec.rule_id != rid` test is falsy and
the lower-priority rule overwrites the value — in both storage orders the
final chosen value is the lower-priority rule's value. -/
theorem c4_priority_counterexample :
    c4r1.priority = some 10 ∧ c4r2.priority = some 1 ∧
    normalize_pinyin ['x', 'í', 'n', 'g'] ≠
      normalize_pinyin ['h', 'à', 'n', 'g'] ∧
    (∃ decs' d',
      lookupDecs (_apply_overrides rsNone [ovTok]
        [((ovTok.start, ovTok.stop), [ovDec0])] [c4r1, c4r2]).2.2
        (ovTok.start, ovTok.stop) = some decs' ∧
      decs'.get? 0 = some d' ∧
      d'.chosen = normalize_pinyin ['h', 'à', 'n', 'g']) ∧
    (∃ decs' d',
      lookupDecs (_apply_overrides rsNone [ovTok]
        [((ovTok.start, ovTok.stop), [ovDec0])] [c4r2, c4r1]).2.2
        (ovTok.start, ovTok.stop) = some decs' ∧
      decs'.get? 0 = some d' ∧
      d'.chosen = normalize_pinyin ['h', 'à', 'n', 'g']) := by
  refine ⟨rfl, rfl, of_decide_eq_false (by with_unfolding_all rfl),
    ⟨[c4dBad], c4dBad, ?_, ?_, ?_⟩, ⟨[c4dBad], c4dBad, ?_, ?_, ?_⟩⟩
  · with_unfolding_all rfl
  · with_unfolding_all rfl
  · with_unfolding_all rfl
  · with_unfolding_all rfl
  · with_unfolding_all rfl
  · with_unfolding_all rfl

/-- Counterexample to C5 as stated: the two rules of
`c4_priority_counterexample` both match the first occurrence of `行` and
disagree on the value, yet the run records NO conflict at all and the
first-applied (higher-priority) value is overwritten rather than retained. -/
theorem c5_conflict_counterexample :
    rule_matches rsNone c4r1 ovTok none none = true ∧
    rule_matches rsNone c4r2 ovTok none none = true ∧
    c4r1.choose ≠ c4r2.choose ∧
    (_apply_overrides rsNone [ovTok]
      [((ovTok.start, ovTok.stop), [ovDec0])] [c4r1, c4r2]).2.1 = [] ∧
    (∃ decs' d',
      lookupDecs (_apply_overrides rsNone [ovTok]
        [((ovTok.start, ovTok.stop), [ovDec0])] [c4r1, c4r2]).2.2
        (ovTok.start, ovTok.stop) = some decs' ∧
      decs'.get? 0 = some d' ∧
      d'.chosen ≠ normalize_pinyin ['x', 'í', 'n', 'g']) := by
  refine ⟨rfl, rfl, of_decide_eq_false (by with_unfolding_all rfl),
    by with_unfolding_all rfl, ⟨[c4dBad], c4dBad, ?_, ?_, ?_⟩⟩
  · with_unfolding_all rfl
  · with_unfolding_all rfl
  · exact of_decide_eq_false (by with_unfolding_all rfl)

/-- The two rules of the counterexample with non-empty distinct ids. -/
def c4r1g : RuleJ :=
  { id := some ['a'], priority := some 10,
    target := some { char := some ['行'], occurrence := .int 1 },
    choose := some ['x', 'í', 'n', 'g'] }

def c4r2g : RuleJ :=
  { id := some ['b'], priority := some 1,
    target := some { char := some ['行'], occurrence := .int 1 },
    choose := some ['h', 'à', 'n', 'g'] }

/-- Witness for the amended C4 at a concrete input. -/
theorem c4_priority_amended_witness :
    ∃ decs' d',
      lookupDecs (_apply_overrides rsNone [ovTok]
        [((ovTok.start, ovTok.stop), [ovDec0])] [c4r1g, c4r2g]).2.2
        (ovTok.start, ovTok.stop) = some decs' ∧
      decs'.get? 0 = some d' ∧
      d'.chosen = normalize_pinyin ['x', 'í', 'n', 'g'] ∧
      d'.rule_id = some ['a'] :=
  c4_priority_amended rsNone ovTok [ovDec0] 0 ovDec0 ['行'] (.int 1) (.int 1)
    c4r1g c4r2g ['a'] ['b'] ['x', 'í', 'n', 'g'] ['h', 'à', 'n', 'g'] 10 1
    [c4r1g, c4r2g] rfl rfl rfl rfl rfl rfl rfl rfl (by decide) (by decide)
    (by decide) (of_decide_eq_false (by with_unfolding_all rfl)) (by decide)
    (by with_unfolding_all rfl) rfl rfl ⟨rfl, trivial⟩ rfl rfl (by decide)
    (Or.inr ⟨1, rfl, by decide, by with_unfolding_all decide,
      by with_unfolding_all rfl⟩)
    (Or.inr ⟨1, rfl, by decide, by with_unfolding_all decide,
      by with_unfolding_all rfl⟩)
    (Or.inl rfl)

/-- The two rules of the C5 witness: equal priorities, so the sort falls
back to id ascending and the lexicographically earlier `a` applies first. -/
def c5r1g : RuleJ :=
  { id := some ['a'], priority := some 7,
    target := some { char := some ['行'], occurrence := .int 1 },
    choose := some ['x', 'í', 'n', 'g'] }

def c5r2g : RuleJ :=
  { id := some ['b'], priority := some 7,
    target := some { char := some ['行'], occurrence := .int 1 },
    choose := some ['h', 'à', 'n', 'g'] }

/-- Witness for the amended C5 at a concrete input exercising the
equal-priority lexicographic-tie case (the storage order is the reversed
one). -/
theorem c5_conflict_amended_witness :
    ∃ decs' d',
      lookupDecs (_apply_overrides rsNone [ovTok]
        [((ovTok.start, ovTok.stop), [ovDec0])] [c5r2g, c5r1g]).2.2
        (ovTok.start, ovTok.stop) = some decs' ∧
      decs'.get? 0 = some d' ∧
      d'.chosen = normalize_pinyin ['x', 'í', 'n', 'g'] ∧
      conflictsAtO (ovTok.start, ovTok.stop) 0
        (_apply_overrides rsNone [ovTok]
          [((ovTok.start, ovTok.stop), [ovDec0])] [c5r2g, c5r1g]).2.1 =
        [{ token_text := ovTok.text, token_start := ovTok.start,
           token_end := ovTok.stop, char := ['行'], offset_in_token := 0,
           existing_rule_id := ['a'],
           existing_choose := normalize_pinyin ['x', 'í', 'n', 'g'],
           new_rule_id := ['b'],
           new_choose := normalize_pinyin ['h', 'à', 'n', 'g'] }] :=
  c5_conflict_amended rsNone ovTok [ovDec0] 0 ovDec0 ['行'] (.int 1) (.int 1)
    c5r1g c5r2g ['a'] ['b'] ['x', 'í', 'n', 'g'] ['h', 'à', 'n', 'g'] 7 7
    [c5r2g, c5r1g] rfl rfl rfl rfl rfl rfl rfl rfl
    (Or.inr ⟨rfl, by decide⟩) (by decide)
    (by decide) (of_decide_eq_false (by with_unfolding_all rfl)) (by decide)
    (by with_unfolding_all rfl) rfl rfl ⟨rfl, trivial⟩ rfl rfl (by decide)
    (Or.inr ⟨1, rfl, by decide, by with_unfolding_all decide,
      by with_unfolding_all rfl⟩)
    (Or.inr ⟨1, rfl, by decide, by with_unfolding_all decide,
      by with_unfolding_all rfl⟩)
    (Or.inr rfl)

/-! ## Review items (`core._collect_review_items`) -/

structure ReviewItem where
  span_id : Nat
  token_index : Nat
  token_text : Str
  token_start : Nat
  token_end : Nat
  char_offset_in_token : Nat
  char : Char
  candidates : List Str
  chosen : Str
  confidence : Option Rat
  needs_review : Bool
  conflict : Bool
deriving DecidableEq, Repr

/-- The review condition `d.needs_review or d.conflict or low_conf`. -/
def reviewCond (threshold : Rat) (d : CharDecision) : Bool :=
  d.needs_review || d.conflict ||
    (match d.confidence with
     | some c => c < threshold
     | none => false)

def reviewItemOf (tok : Token) (d : CharDecision) : ReviewItem :=
  { span_id := tok.span_id, token_index := tok.index_in_span,
    token_text := tok.text, token_start := tok.start, token_end := tok.stop,
    char_offset_in_token := d.offset_in_token, char := d.char,
    candidates := d.candidates, chosen := d.chosen,
    confidence := d.confidence, needs_review := d.needs_review,
    conflict := d.conflict }

/-- `core._collect_review_items` (`token_decisions.get(...) or []`). -/
def _collect_review_items (tokens : List Token) (dm : DecMap)
    (threshold : Rat) : List ReviewItem :=
  (tokens.map fun tok =>
    (((lookupDecs dm (tok.start, tok.stop)).getD []).filter
      (reviewCond threshold)).map (reviewItemOf tok)).flatten

/-! ## LLM double check (`core._apply_llm_double_check`) -/

/-- One response item of the double check, after the `isinstance(it, dict)`
filter.  A `none` in the first three fields models a missing or wrongly-typed
value (span ids are modelled numerically as elsewhere; a string span id that
matches no token is representable by a number outside the tokens' span ids);
a `none` `char`/`recommended`/`reason` models a missing or non-string value;
`needs_user` is `bool(it.get("needs_user", False))`. -/
structure DCItem where
  span_id : Option Nat := none
  token_index : Option Int := none
  char_offset_in_token : Option Int := none
  char : Option Str := none
  recommended : Option Str := none
  reason : Option Str := none
  needs_user : Bool := false
deriving DecidableEq, Repr

/-- The observable behaviours of a configured double-check collaborator:
no callable `double_check` attribute, a raising call, a non-object response,
an object response without an item list, or an item list. -/
inductive DCAdapterM where
  | noFn
  | raises
  | badResp
  | noItems
  | items (l : List DCItem)
deriving DecidableEq, Repr

inductive DCError where
  | missing_double_check
  | exception
  | response_not_object
  | missing_items
deriving DecidableEq, Repr

structure DCApplied where
  span_id : Nat
  token_index : Int
  char_offset_in_token : Nat
  char : Char
  recommended : Str
  reason : Option Str
deriving DecidableEq, Repr

structure DCNeedsUser where
  span_id : Nat
  token_index : Int
  char_offset_in_token : Nat
  char : Char
  candidates : List Str
  recommended : Option Str
  reason : Option Str
deriving DecidableEq, Repr

/-- The double-check meta dict (the echoed request/response are deterministic
functions of the same arguments and are omitted; list keys absent on early
returns are modelled as empty lists, and a missing `error` key as `none`). -/
structure DCMeta where
  used : Bool := false
  error : Option DCError := none
  applied : List DCApplied := []
  needs_user : List DCNeedsUser := []
  warnings : List Warning := []
deriving DecidableEq, Repr

structure DCState where
  dm : DecMap
  applied : List DCApplied
  needs_user : List DCNeedsUser
  warnings : List Warning
deriving DecidableEq, Repr

/-- `tok_by_span_and_index.get((sid, token_index))`: repeated dict assignment
keeps the last token with the key. -/
def tokBySpanIndex (tokens : List Token) (sid : Nat) (idx : Int) :
    Option Token :=
  (tokens.filter fun t =>
    t.span_id == sid && ((t.index_in_span : Int) == idx)).getLast?

/-- The char-mismatch warning of one item: logged when a non-empty `char`
string differs from the stored decision's character. -/
def dcMismatchW (sid : Nat) (ti : Int) (co : Nat) (dec : CharDecision)
    (chv : Option Str) : List Warning :=
  match chv with
  | some s =>
    if !s.isEmpty && (([dec.char] : Str) != s) then
      [.dc_char_mismatch sid ti co dec.char s]
    else []
  | none => []

/-- The recommendation branch of one in-range item (a non-empty recommended
string overwrites the chosen value and clears the review mark). -/
def dcApplyRec (sid : Nat) (ti : Int) (co : Nat) (tok : Token)
    (decs : List CharDecision) (dec : CharDecision) (st : DCState)
    (it : DCItem) (r : Str) : DCState :=
  if r.isEmpty then
    { st with warnings := st.warnings ++ dcMismatchW sid ti co dec it.char }
  else
    { dm := setDecs st.dm (tok.start, tok.stop)
        (decs.set co
          { dec with
              chosen := normalize_pinyin r,
              resolved_by := .llm_double_check,
              needs_review := false,
              notes := dec.notes ++
                (match it.reason with
                 | some rs =>
                   if rs.isEmpty then [] else [Note.llm_reason rs]
                 | none => []) }),
      applied := st.applied ++
        [{ span_id := sid, token_index := ti, char_offset_in_token := co,
           char := dec.char, recommended := normalize_pinyin r,
           reason := it.reason }],
      needs_user := st.needs_user,
      warnings := st.warnings ++ dcMismatchW sid ti co dec it.char }

/-- The effect of one in-range item on the decision `dec` stored at list
index `co` of the token's decision list `decs`. -/
def dcApplyItem (sid : Nat) (ti : Int) (co : Nat) (tok : Token)
    (decs : List CharDecision) (dec : CharDecision) (st : DCState)
    (it : DCItem) : DCState :=
  if it.needs_user then
    { dm := setDecs st.dm (tok.start, tok.stop)
        (decs.set co
          { dec with
              needs_review := true,
              notes := dec.notes ++ [Note.llm_double_check_needs_user] }),
      applied := st.applied,
      needs_user := st.needs_user ++
        [{ span_id := sid, token_index := ti, char_offset_in_token := co,
           char := dec.char, candidates := dec.candidates,
           recommended := it.recommended.map normalize_pinyin,
           reason := it.reason }],
      warnings := st.warnings ++ dcMismatchW sid ti co dec it.char }
  else
    match it.recommended with
    | some r => dcApplyRec sid ti co tok decs dec st it r
    | none =>
      { st with warnings := st.warnings ++ dcMismatchW sid ti co dec it.char }

/-- The lookup of the decision at the item's character offset. -/
def dcStepAt (st : DCState) (it : DCItem) (sid : Nat) (ti co : Int)
    (tok : Token) : DCState :=
  match ((lookupDecs st.dm (tok.start, tok.stop)).getD []).get? co.toNat with
  | some dec =>
    dcApplyItem sid ti co.toNat tok
      ((lookupDecs st.dm (tok.start, tok.stop)).getD []) dec st it
  | none => st

/-- The offset range check `0 <= char_offset < len(decisions)`. -/
def dcStepRange (st : DCState) (it : DCItem) (sid : Nat) (ti co : Int)
    (tok : Token) : DCState :=
  if 0 ≤ co &&
      co < (((lookupDecs st.dm (tok.start, tok.stop)).getD []).length : Int)
  then dcStepAt st it sid ti co tok
  else
    { st with warnings := st.warnings ++ [.dc_char_offset_oob sid ti co] }

/-- The token lookup of one item. -/
def dcStepTok (tokens : List Token) (st : DCState) (it : DCItem) (sid : Nat)
    (ti co : Int) : DCState :=
  match tokBySpanIndex tokens sid ti with
  | none =>
    { st with warnings := st.warnings ++ [.dc_token_not_found sid ti] }
  | some tok => dcStepRange st it sid ti co tok

/-- One iteration of the `for it in resp_items` loop: items with a missing or
wrongly-typed id/index/offset are skipped silently. -/
def dcStep (tokens : List Token) (st : DCState) (it : DCItem) : DCState :=
  match it.span_id, it.token_index, it.char_offset_in_token with
  | some sid, some ti, some co => dcStepTok tokens st it sid ti co
  | _, _, _ => st

/-- `core._apply_llm_double_check`: the meta dict plus the updated decision
table.  A falsy adapter or an empty review list short-circuits with
`used = False`; a missing callable sets an error while `used` stays `False`;
an exception, a non-object response, or a missing item list set `used = True`
and an error; otherwise every response item is processed in order. -/
def _apply_llm_double_check (adapter : Option DCAdapterM)
    (tokens : List Token) (dm : DecMap) (review_items : List ReviewItem) :
    DCMeta × DecMap :=
  match adapter with
  | none => ({ used := false }, dm)
  | some b =>
    if review_items.isEmpty then ({ used := false }, dm)
    else
      match b with
      | .noFn => ({ used := false, error := some .missing_double_check }, dm)
      | .raises => ({ used := true, error := some .exception }, dm)
      | .badResp =>
        ({ used := true, error := some .response_not_object }, dm)
      | .noItems => ({ used := true, error := some .missing_items }, dm)
      | .items l =>
        ({ used := true, error := none,
           applied := (l.foldl (dcStep tokens) ⟨dm, [], [], []⟩).applied,
           needs_user :=
             (l.foldl (dcStep tokens) ⟨dm, [], [], []⟩).needs_user,
           warnings := (l.foldl (dcStep tokens) ⟨dm, [], [], []⟩).warnings },
         (l.foldl (dcStep tokens) ⟨dm, [], [], []⟩).dm)

/-! ## Output stitching and the full pipeline (`core.pinyinize`) -/

/-- `out_parts[-1].endswith((" ", "\t", "\n"))`. -/
def endsWS (s : Str) : Bool :=
  match s.getLast? with
  | some c => c = ' ' || c = '\t' || c = '\n'
  | none => false

/-- `sp.text.startswith((" ", "\t", "\n"))`. -/
def startsWS (s : Str) : Bool :=
  match s with
  | c :: _ => c = ' ' || c = '\t' || c = '\n'
  | [] => false

/-- The rebuilt per-token pinyin: `"".join(d.chosen for d in decisions)`. -/
def token_pinyin_of (dm : DecMap) (tok : Token) : Str :=
  (((lookupDecs dm (tok.start, tok.stop)).getD []).map
    CharDecision.chosen).flatten

/-- `han_span_output`: the space-joined rebuilt pinyin of the span's
tokens. -/
def han_span_output (tokens : List Token) (dm : DecMap) (sid : Nat) : Str :=
  List.intercalate [' ']
    ((tokens.filter fun t => t.span_id == sid).map (token_pinyin_of dm))

/-- The span loop of the output stitching, carrying
`(out_parts, prev_kind, prev_was_han)`. -/
def stitchGo (wls : Bool) (hanOut : Nat → Str) :
    List Span → List Str → Option ProtectedKind → Bool → List Str
  | [], acc, _, _ => acc
  | sp :: rest, acc, prevKind, prevHan =>
    if sp.type == .han then
      stitchGo wls hanOut rest
        ((if wls && !acc.isEmpty &&
            (!prevHan && is_word_like_protected_kind prevKind) &&
            !endsWS ((acc.getLast?).getD []) then
          acc ++ [[' ']] else acc) ++ [hanOut sp.span_idx])
        none true
    else
      stitchGo wls hanOut rest
        ((if wls && !acc.isEmpty &&
            (prevHan && is_word_like_protected_kind sp.kind) &&
            (!endsWS ((acc.getLast?).getD []) && !startsWS sp.text) then
          acc ++ [[' ']] else acc) ++ [sp.text])
        sp.kind false

/-- The decision report (request/response echoes inside the meta dicts are
deterministic functions of the same inputs and are not duplicated). -/
structure Report where
  text : Str
  spans : List Span
  report_tokens : List (Token × Str × List CharDecision)
  llm_segment_and_tag : LlmMeta
  llm_double_check : DCMeta
  needs_review_items : List ReviewItem
  unresolved_fallback : Bool
  applied_overrides : List AppliedRule
  conflicts : List Conflict
  warnings : List Warning
deriving DecidableEq, Repr

/-- The analysis loop filling `token_decisions` and extending `warnings`
(the initial `token_pinyin` values are rebuilt from the decisions before any
use, so only the decision table and the warnings are carried). -/
def analyzeAll (tokens : List Token) (words : WordMap)
    (char_base : CharBase) (disambig : DisambigMap) (thr : Thresholds) :
    DecMap × List Warning :=
  tokens.foldl
    (fun acc tok =>
      (setDecs acc.1 (tok.start, tok.stop)
        (_analyze_token tok words char_base disambig thr).2.1,
       acc.2 ++ (_analyze_token tok words char_base disambig thr).2.2))
    ([], [])

def pzTokens (ip : Char → Bool) (w : WordMap)
    (la : Option (Option (List RespSpan))) (text : Str) : List Token :=
  (tokens_llm_or_fallback (split_spans ip text) w la).1

def pzLlmMeta (ip : Char → Bool) (w : WordMap)
    (la : Option (Option (List RespSpan))) (text : Str) : LlmMeta :=
  (tokens_llm_or_fallback (split_spans ip text) w la).2

def pzAnalyzed (ip : Char → Bool) (w : WordMap) (cb : CharBase)
    (dg : DisambigMap) (th : Thresholds)
    (la : Option (Option (List RespSpan))) (text : Str) :
    DecMap × List Warning :=
  analyzeAll (pzTokens ip w la text) w cb dg th

def pzOv (ip : Char → Bool) (rs : Str → Str → Bool) (w : WordMap)
    (cb : CharBase) (dg : DisambigMap) (th : Thresholds) (ru : List RuleJ)
    (la : Option (Option (List RespSpan))) (text : Str) :
    List AppliedRule × List Conflict × DecMap :=
  _apply_overrides rs (pzTokens ip w la text)
    (pzAnalyzed ip w cb dg th la text).1 ru

def pzReviewBefore (ip : Char → Bool) (rs : Str → Str → Bool) (w : WordMap)
    (cb : CharBase) (dg : DisambigMap) (th : Thresholds) (ru : List RuleJ)
    (la : Option (Option (List RespSpan))) (dct : Rat) (text : Str) :
    List ReviewItem :=
  _collect_review_items (pzTokens ip w la text)
    (pzOv ip rs w cb dg th ru la text).2.2 dct

def pzDC (ip : Char → Bool) (rs : Str → Str → Bool) (w : WordMap)
    (cb : CharBase) (dg : DisambigMap) (th : Thresholds) (ru : List RuleJ)
    (la : Option (Option (List RespSpan))) (da : Option DCAdapterM)
    (dct : Rat) (text : Str) : DCMeta × DecMap :=
  _apply_llm_double_check da (pzTokens ip w la text)
    (pzOv ip rs w cb dg th ru la text).2.2
    (pzReviewBefore ip rs w cb dg th ru la dct text)

def pzDMF (ip : Char → Bool) (rs : Str → Str → Bool) (w : WordMap)
    (cb : CharBase) (dg : DisambigMap) (th : Thresholds) (ru : List RuleJ)
    (la : Option (Option (List RespSpan))) (da : Option DCAdapterM)
    (dct : Rat) (text : Str) : DecMap :=
  (pzDC ip rs w cb dg th ru la da dct text).2

def pzReviewAfter (ip : Char → Bool) (rs : Str → Str → Bool) (w : WordMap)
    (cb : CharBase) (dg : DisambigMap) (th : Thresholds) (ru : List RuleJ)
    (la : Option (Option (List RespSpan))) (da : Option DCAdapterM)
    (dct : Rat) (text : Str) : List ReviewItem :=
  _collect_review_items (pzTokens ip w la text)
    (pzDMF ip rs w cb dg th ru la da dct text) dct

def pzOut (ip : Char → Bool) (rs : Str → Str → Bool) (w : WordMap)
    (cb : CharBase) (dg : DisambigMap) (th : Thresholds) (ru : List RuleJ)
    (la : Option (Option (List RespSpan))) (da : Option DCAdapterM)
    (wls : Bool) (dct : Rat) (text : Str) : Str :=
  (stitchGo wls
    (han_span_output (pzTokens ip w la text)
      (pzDMF ip rs w cb dg th ru la da dct text))
    (split_spans ip text) [] none false).flatten

/-- `core.pinyinize`: the output text and the report.  Collaborators are
explicit parameters: `ip` the punctuation class of the splitter, `rs` the
`re.search` of the rule engine, `w` the combined word+lexicon map, `cb`
`dg` `th` the character/polyphone resources, `ru` the override rules, `la`
the advisory tokenizer adapter, `da` the double-check adapter, `wls`
`options.word_like_spacing`, `dct` `options.double_check_threshold`. -/
def pinyinize (ip : Char → Bool) (rs : Str → Str → Bool) (w : WordMap)
    (cb : CharBase) (dg : DisambigMap) (th : Thresholds) (ru : List RuleJ)
    (la : Option (Option (List RespSpan))) (da : Option DCAdapterM)
    (wls : Bool) (dct : Rat) (text : Str) : Str × Report :=
  (pzOut ip rs w cb dg th ru la da wls dct text,
   { text := text,
     spans := split_spans ip text,
     report_tokens := (pzTokens ip w la text).map fun tok =>
       (tok,
        token_pinyin_of (pzDMF ip rs w cb dg th ru la da dct text) tok,
        (lookupDecs (pzDMF ip rs w cb dg th ru la da dct text)
          (tok.start, tok.stop)).getD []),
     llm_segment_and_tag := pzLlmMeta ip w la text,
     llm_double_check := (pzDC ip rs w cb dg th ru la da dct text).1,
     needs_review_items := pzReviewAfter ip rs w cb dg th ru la da dct text,
     unresolved_fallback :=
       !(pzReviewAfter ip rs w cb dg th ru la da dct text).isEmpty &&
         !((pzDC ip rs w cb dg th ru la da dct text).1.used &&
           !(pzDC ip rs w cb dg th ru la da dct text).1.error.isSome),
     applied_overrides := (pzOv ip rs w cb dg th ru la text).1,
     conflicts := (pzOv ip rs w cb dg th ru la text).2.1,
     warnings := (pzAnalyzed ip w cb dg th la text).2 })

/-! ### Pipeline claims (C7, C8, C9) -/

def punctNone : Char → Bool := fun _ => false

/-- The value of the line-895 flag expression as a function of its three
inputs. -/
theorem unresolvedFlagSpec (l : List ReviewItem) (u : Bool)
    (e : Option DCError) :
    (!l.isEmpty && !(u && !e.isSome)) = true ↔
      (l ≠ [] ∧ ¬(u = true ∧ e = none)) := by
  cases l <;> cases u <;> cases e <;> simp

/-- C7 (amended).  The report's unresolved flag is true if and only if
needs-review items remain after the double check AND the double check was
not consulted successfully (it was not used, or it errored); in particular a
successful consultation clears the flag even when review items remain. -/
theorem c7_unresolved_amended (ip : Char → Bool) (rs : Str → Str → Bool)
    (w : WordMap) (cb : CharBase) (dg : DisambigMap) (th : Thresholds)
    (ru : List RuleJ) (la : Option (Option (List RespSpan)))
    (da : Option DCAdapterM) (wls : Bool) (dct : Rat) (text : Str) :
    (pinyinize ip rs w cb dg th ru la da wls dct
        text).2.unresolved_fallback = true ↔
      ((pinyinize ip rs w cb dg th ru la da wls dct
          text).2.needs_review_items ≠ [] ∧
        ¬((pinyinize ip rs w cb dg th ru la da wls dct
            text).2.llm_double_check.used = true ∧
          (pinyinize ip rs w cb dg th ru la da wls dct
            text).2.llm_double_check.error = none)) :=
  unresolvedFlagSpec _ _ _

/-- Counterexample to C7 as stated: with `好` unknown to the character base,
a needs-review item remains after the double check, the double-check
collaborator was consulted successfully (a valid response with an empty item
list), and the report's unresolved flag is FALSE. -/
theorem c7_unresolved_counterexample :
    ((pinyinize punctNone rsNone [] [] [] thrGate [] none
        (some (.items [])) false (mkRat 8 10)
        ['好']).2.needs_review_items).isEmpty = false ∧
    (pinyinize punctNone rsNone [] [] [] thrGate [] none
      (some (.items [])) false (mkRat 8 10)
      ['好']).2.llm_double_check.used = true ∧
    (pinyinize punctNone rsNone [] [] [] thrGate [] none
      (some (.items [])) false (mkRat 8 10)
      ['好']).2.llm_double_check.error = none ∧
    (pinyinize punctNone rsNone [] [] [] thrGate [] none
      (some (.items [])) false (mkRat 8 10)
      ['好']).2.unresolved_fallback = false := by
  refine ⟨?_, ?_, ?_, ?_⟩ <;> with_unfolding_all rfl

theorem split_spans_texts_concat (isPunct : Char → Bool) (text : Str) :
    ((split_spans isPunct text).map Span.text).flatten = text := by
  obtain ⟨_, hf, _⟩ :=
    splitGo_partition isPunct text text.length 0 0 (by omega) (by omega)
  simpa using hf

/-- The stitching loop over protected spans only, entered with
`prev_was_han = False`: no spacing is inserted and the parts are the span
texts. -/
theorem stitchGo_no_han (wls : Bool) (hanOut : Nat → Str) :
    ∀ (spans : List Span) (acc : List Str) (pk : Option ProtectedKind),
      (∀ sp ∈ spans, sp.type ≠ .han) →
      (stitchGo wls hanOut spans acc pk false).flatten =
        acc.flatten ++ ((spans.map Span.text).flatten) := by
  intro spans
  induction spans with
  | nil => intro acc pk _; simp [stitchGo]
  | cons sp rest ih =>
    intro acc pk h
    have hsp : sp.type ≠ SpanType.han := h sp (List.mem_cons_self sp rest)
    have hb : (sp.type == SpanType.han) = false := by simpa using hsp
    rw [stitchGo, if_neg (by simp [hb])]
    rw [if_neg (by simp)]
    rw [ih (acc ++ [sp.text]) sp.kind
      (fun s hs => h s (List.mem_cons_of_mem sp hs))]
    simp

/-- C8.  An input without Han characters passes through unchanged: the
splitter yields protected spans only, the stitching loop never inserts
word-like spacing (it is guarded by a preceding Han span), and the parts
concatenate back to the input — for every word-like-spacing setting and every
collaborator. -/
theorem c8_identity (ip : Char → Bool) (rs : Str → Str → Bool) (w : WordMap)
    (cb : CharBase) (dg : DisambigMap) (th : Thresholds) (ru : List RuleJ)
    (la : Option (Option (List RespSpan))) (da : Option DCAdapterM)
    (wls : Bool) (dct : Rat) (text : Str)
    (h : ∀ c ∈ text, is_han c = false) :
    (pinyinize ip rs w cb dg th ru la da wls dct text).1 = text := by
  show pzOut ip rs w cb dg th ru la da wls dct text = text
  unfold pzOut
  have hno : ∀ sp ∈ split_spans ip text, sp.type ≠ SpanType.han := by
    intro sp hsp hty
    have hpt := split_spans_no_han ip text h sp hsp
    rw [hpt] at hty
    cases hty
  rw [stitchGo_no_han wls _ (split_spans ip text) [] none hno]
  rw [split_spans_texts_concat]
  rfl

/-- Witness for C8 at a concrete Han-free input. -/
theorem c8_identity_witness :
    (∀ c ∈ (['h', 'i', '!'] : Str), is_han c = false) ∧
    (pinyinize punctNone rsNone [] [] [] thrGate [] none none true
      (mkRat 8 10) ['h', 'i', '!']).1 = ['h', 'i', '!'] :=
  ⟨by decide,
   c8_identity punctNone rsNone [] [] [] thrGate [] none none true
     (mkRat 8 10) ['h', 'i', '!'] (by decide)⟩

/-- C9.  With no advisory adapters configured, the pipeline is a pure
function of the text and the resources: two runs — even wired to two
different absent-adapter slots — produce the same output text and the same
report. -/
theorem c9_determinism (ip : Char → Bool) (rs : Str → Str → Bool)
    (w : WordMap) (cb : CharBase) (dg : DisambigMap) (th : Thresholds)
    (ru : List RuleJ) (a1 a2 : Option (Option (List RespSpan)))
    (d1 d2 : Option DCAdapterM) (wls : Bool) (dct : Rat) (text : Str)
    (h1 : a1 = none) (h2 : a2 = none) (h3 : d1 = none) (h4 : d2 = none) :
    pinyinize ip rs w cb dg th ru a1 d1 wls dct text =
      pinyinize ip rs w cb dg th ru a2 d2 wls dct text := by
  subst h1
  subst h2
  subst h3
  subst h4
  rfl

/-- Witness for C9 at a concrete input. -/
theorem c9_determinism_witness :
    pinyinize punctNone rsNone [] [] [] thrGate [] none none true
        (mkRat 8 10) ['好'] =
      pinyinize punctNone rsNone [] [] [] thrGate [] none none true
        (mkRat 8 10) ['好'] :=
  c9_determinism punctNone rsNone [] [] [] thrGate [] none none none none
    true (mkRat 8 10) ['好'] rfl rfl rfl rfl

/-! ### Double-check item processing (C10) -/

theorem lookupDecs_set (dm : DecMap) (K : Nat × Nat)
    (v : List CharDecision) :
    lookupDecs (setDecs dm K v) K = some v := by
  induction dm with
  | nil =>
    unfold setDecs lookupDecs
    rw [List.find?_cons_of_pos _ (by simp)]
    rfl
  | cons e es ih =>
    unfold setDecs
    by_cases h : (e.1 == K) = true
    · rw [if_pos h]
      unfold lookupDecs
      rw [List.find?_cons_of_pos _ (by simp)]
      rfl
    · rw [if_neg h]
      unfold lookupDecs
      rw [List.find?_cons_of_neg _ (by simpa using h)]
      exact ih

theorem eq_nil_of_isEmpty {α : Type} (l : List α) (h : l.isEmpty = true) :
    l = [] := by
  cases l with
  | nil => rfl
  | cons a as => simp at h

theorem dcStep_eqTok (tokens : List Token) (st : DCState) (it : DCItem)
    (sid : Nat) (ti co : Int) (h1 : it.span_id = some sid)
    (h2 : it.token_index = some ti)
    (h3 : it.char_offset_in_token = some co) :
    dcStep tokens st it = dcStepTok tokens st it sid ti co := by
  unfold dcStep
  rw [h1, h2, h3]

theorem dcStepTok_eq (tokens : List Token) (st : DCState) (it : DCItem)
    (sid : Nat) (ti co : Int) (tok : Token)
    (h : tokBySpanIndex tokens sid ti = some tok) :
    dcStepTok tokens st it sid ti co = dcStepRange st it sid ti co tok := by
  unfold dcStepTok
  rw [h]

theorem dcStepRange_eq (st : DCState) (it : DCItem) (sid : Nat) (ti co : Int)
    (tok : Token) (decs : List CharDecision)
    (hgd : (lookupDecs st.dm (tok.start, tok.stop)).getD [] = decs)
    (h0 : 0 ≤ co) (hl : co < (decs.length : Int)) :
    dcStepRange st it sid ti co tok = dcStepAt st it sid ti co tok := by
  unfold dcStepRange
  rw [hgd]
  rw [if_pos (by
    rw [Bool.and_eq_true]
    exact ⟨decide_eq_true h0, decide_eq_true hl⟩)]

theorem dcStepAt_eq (st : DCState) (it : DCItem) (sid : Nat) (ti co : Int)
    (tok : Token) (decs : List CharDecision) (dec : CharDecision)
    (hgd : (lookupDecs st.dm (tok.start, tok.stop)).getD [] = decs)
    (hdec : decs.get? co.toNat = some dec) :
    dcStepAt st it sid ti co tok =
      dcApplyItem sid ti co.toNat tok decs dec st it := by
  unfold dcStepAt
  rw [hgd, hdec]

theorem dcApplyItem_user (sid : Nat) (ti : Int) (co : Nat) (tok : Token)
    (decs : List CharDecision) (dec : CharDecision) (st : DCState)
    (it : DCItem) (h : it.needs_user = true) :
    dcApplyItem sid ti co tok decs dec st it =
      { dm := setDecs st.dm (tok.start, tok.stop)
          (decs.set co
            { dec with
                needs_review := true,
                notes := dec.notes ++ [Note.llm_double_check_needs_user] }),
        applied := st.applied,
        needs_user := st.needs_user ++
          [{ span_id := sid, token_index := ti,
             char_offset_in_token := co, char := dec.char,
             candidates := dec.candidates,
             recommended := it.recommended.map normalize_pinyin,
             reason := it.reason }],
        warnings := st.warnings ++ dcMismatchW sid ti co dec it.char } := by
  unfold dcApplyItem
  rw [if_pos h]

theorem dcApplyItem_rec (sid : Nat) (ti : Int) (co : Nat) (tok : Token)
    (decs : List CharDecision) (dec : CharDecision) (st : DCState)
    (it : DCItem) (r : Str) (h : it.needs_user = false)
    (hr : it.recommended = some r) :
    dcApplyItem sid ti co tok decs dec st it =
      dcApplyRec sid ti co tok decs dec st it r := by
  unfold dcApplyItem
  rw [if_neg (by simp [h]), hr]

theorem dcApplyItem_noRec (sid : Nat) (ti : Int) (co : Nat) (tok : Token)
    (decs : List CharDecision) (dec : CharDecision) (st : DCState)
    (it : DCItem) (h : it.needs_user = false)
    (hr : it.recommended = none) :
    dcApplyItem sid ti co tok decs dec st it =
      { st with
          warnings := st.warnings ++ dcMismatchW sid ti co dec it.char } := by
  unfold dcApplyItem
  rw [if_neg (by simp [h]), hr]

theorem dcApplyRec_empty (sid : Nat) (ti : Int) (co : Nat) (tok : Token)
    (decs : List CharDecision) (dec : CharDecision) (st : DCState)
    (it : DCItem) (r : Str) (h : r.isEmpty = true) :
    dcApplyRec sid ti co tok decs dec st it r =
      { st with
          warnings := st.warnings ++ dcMismatchW sid ti co dec it.char } := by
  unfold dcApplyRec
  rw [if_pos h]

theorem dcApplyRec_set (sid : Nat) (ti : Int) (co : Nat) (tok : Token)
    (decs : List CharDecision) (dec : CharDecision) (st : DCState)
    (it : DCItem) (r : Str) (h : r.isEmpty = false) :
    dcApplyRec sid ti co tok decs dec st it r =
      { dm := setDecs st.dm (tok.start, tok.stop)
          (decs.set co
            { dec with
                chosen := normalize_pinyin r,
                resolved_by := .llm_double_check,
                needs_review := false,
                notes := dec.notes ++
                  (match it.reason with
                   | some rs =>
                     if rs.isEmpty then [] else [Note.llm_reason rs]
                   | none => []) }),
        applied := st.applied ++
          [{ span_id := sid, token_index := ti,
             char_offset_in_token := co, char := dec.char,
             recommended := normalize_pinyin r, reason := it.reason }],
        needs_user := st.needs_user,
        warnings := st.warnings ++ dcMismatchW sid ti co dec it.char } := by
  unfold dcApplyRec
  rw [if_neg (by simp [h])]

/-- C10.  A double-check item carrying a valid span id, token index and
in-range character offset whose non-empty `char` string differs from the
stored decision's character is NOT skipped: the char-mismatch warning is
recorded in the meta, AND the item's effect is still applied to the decision
at that offset — the review mark is set for a `needs_user` item, and a
non-empty recommendation overwrites the chosen value with its normalization,
sets the provenance to `llm_double_check` and clears the review mark. -/
theorem c10_double_check_mismatch (tokens : List Token) (dm : DecMap)
    (items : List ReviewItem) (it : DCItem) (sid : Nat) (ti co : Int)
    (tok : Token) (decs : List CharDecision) (dec : CharDecision) (s : Str)
    (hitems : items.isEmpty = false)
    (hsid : it.span_id = some sid) (hti : it.token_index = some ti)
    (hco : it.char_offset_in_token = some co)
    (htok : tokBySpanIndex tokens sid ti = some tok)
    (hlk : lookupDecs dm (tok.start, tok.stop) = some decs)
    (hco0 : 0 ≤ co) (hcolen : co < (decs.length : Int))
    (hdec : decs.get? co.toNat = some dec)
    (hchar : it.char = some s) (hs : s ≠ [])
    (hne : ([dec.char] : Str) ≠ s) :
    Warning.dc_char_mismatch sid ti co.toNat dec.char s ∈
      (_apply_llm_double_check (some (.items [it])) tokens dm
        items).1.warnings ∧
    ∃ decs' d',
      lookupDecs (_apply_llm_double_check (some (.items [it])) tokens dm
          items).2 (tok.start, tok.stop) = some decs' ∧
      decs'.get? co.toNat = some d' ∧
      (it.needs_user = true →
        d'.needs_review = true ∧
        d'.notes = dec.notes ++ [Note.llm_double_check_needs_user]) ∧
      (∀ r, it.needs_user = false → it.recommended = some r → r ≠ [] →
        d'.chosen = normalize_pinyin r ∧
        d'.resolved_by = ResolvedBy.llm_double_check ∧
        d'.needs_review = false) := by
  have hred : _apply_llm_double_check (some (.items [it])) tokens dm items =
      (if items.isEmpty = true then (({ used := false } : DCMeta), dm)
       else
        ({ used := true, error := none,
           applied := (dcStep tokens ⟨dm, [], [], []⟩ it).applied,
           needs_user := (dcStep tokens ⟨dm, [], [], []⟩ it).needs_user,
           warnings := (dcStep tokens ⟨dm, [], [], []⟩ it).warnings },
         (dcStep tokens ⟨dm, [], [], []⟩ it).dm)) := rfl
  have hrun : _apply_llm_double_check (some (.items [it])) tokens dm items =
      ({ used := true, error := none,
         applied := (dcStep tokens ⟨dm, [], [], []⟩ it).applied,
         needs_user := (dcStep tokens ⟨dm, [], [], []⟩ it).needs_user,
         warnings := (dcStep tokens ⟨dm, [], [], []⟩ it).warnings },
       (dcStep tokens ⟨dm, [], [], []⟩ it).dm) := by
    rw [hred, if_neg (by simp [hitems])]
  have hgd : (lookupDecs dm (tok.start, tok.stop)).getD [] = decs := by
    rw [hlk]
    rfl
  have hstep : dcStep tokens ⟨dm, [], [], []⟩ it =
      dcApplyItem sid ti co.toNat tok decs dec ⟨dm, [], [], []⟩ it := by
    rw [dcStep_eqTok tokens ⟨dm, [], [], []⟩ it sid ti co hsid hti hco]
    rw [dcStepTok_eq tokens ⟨dm, [], [], []⟩ it sid ti co tok htok]
    rw [dcStepRange_eq ⟨dm, [], [], []⟩ it sid ti co tok decs hgd hco0
      hcolen]
    rw [dcStepAt_eq ⟨dm, [], [], []⟩ it sid ti co tok decs dec hgd hdec]
  have hmw : dcMismatchW sid ti co.toNat dec it.char =
      [Warning.dc_char_mismatch sid ti co.toNat dec.char s] := by
    rw [hchar]
    show (if (!s.isEmpty && (([dec.char] : Str) != s)) = true then
      [Warning.dc_char_mismatch sid ti co.toNat dec.char s] else []) = _
    rw [if_pos (by
      rw [Bool.and_eq_true]
      exact ⟨by rw [isEmpty_false_of_ne_nil s hs]; rfl,
        bne_iff_ne.mpr hne⟩)]
  have hcoN : co.toNat < decs.length := by omega
  rw [hrun, hstep]
  by_cases hnu : it.needs_user = true
  · rw [dcApplyItem_user sid ti co.toNat tok decs dec ⟨dm, [], [], []⟩ it
      hnu]
    refine ⟨by simp [hmw], decs.set co.toNat
      { dec with
          needs_review := true,
          notes := dec.notes ++ [Note.llm_double_check_needs_user] },
      { dec with
          needs_review := true,
          notes := dec.notes ++ [Note.llm_double_check_needs_user] },
      lookupDecs_set dm (tok.start, tok.stop) _,
      get?_set_self decs co.toNat _ dec hdec, fun _ => ⟨rfl, rfl⟩,
      fun r hfalse _ _ => absurd hnu (by rw [hfalse]; simp)⟩
  · have hnu' : it.needs_user = false := by
      cases hn : it.needs_user
      · rfl
      · exact absurd hn hnu
    match hr : it.recommended with
    | none =>
      rw [dcApplyItem_noRec sid ti co.toNat tok decs dec ⟨dm, [], [], []⟩ it
        hnu' hr]
      refine ⟨by simp [hmw], decs, dec, hlk, hdec,
        fun htrue => absurd htrue hnu, fun r _ hrec _ => ?_⟩
      cases hrec
    | some r =>
      by_cases hre : r.isEmpty = true
      · rw [dcApplyItem_rec sid ti co.toNat tok decs dec ⟨dm, [], [], []⟩ it
          r hnu' hr]
        rw [dcApplyRec_empty sid ti co.toNat tok decs dec ⟨dm, [], [], []⟩
          it r hre]
        refine ⟨by simp [hmw], decs, dec, hlk, hdec,
          fun htrue => absurd htrue hnu, fun r' _ hrec hr'ne => ?_⟩
        injection hrec with hrr
        subst hrr
        exact absurd (eq_nil_of_isEmpty r hre) hr'ne
      · have hre' : r.isEmpty = false := by
          cases hx : r.isEmpty
          · rfl
          · exact absurd hx hre
        rw [dcApplyItem_rec sid ti co.toNat tok decs dec ⟨dm, [], [], []⟩ it
          r hnu' hr]
        rw [dcApplyRec_set sid ti co.toNat tok decs dec ⟨dm, [], [], []⟩ it
          r hre']
        refine ⟨by simp [hmw], decs.set co.toNat
          { dec with
              chosen := normalize_pinyin r,
              resolved_by := .llm_double_check,
              needs_review := false,
              notes := dec.notes ++
                (match it.reason with
                 | some rs =>
                   if rs.isEmpty then [] else [Note.llm_reason rs]
                 | none => []) },
          { dec with
              chosen := normalize_pinyin r,
              resolved_by := .llm_double_check,
              needs_review := false,
              notes := dec.notes ++
                (match it.reason with
                 | some rs =>
                   if rs.isEmpty then [] else [Note.llm_reason rs]
                 | none => []) },
          lookupDecs_set dm (tok.start, tok.stop) _,
          get?_set_self decs co.toNat _ dec hdec,
          fun htrue => absurd htrue hnu, fun r' _ hrec _ => ?_⟩
        injection hrec with hrr
        subst hrr
        exact ⟨rfl, rfl, rfl⟩

/-- The double-check response item of the C10 witness: it addresses the
stored decision but names the wrong character. -/
def c10item : DCItem :=
  { span_id := some 0, token_index := some 0, char_offset_in_token := some 0,
    char := some ['好'], recommended := some ['x', 'í', 'n', 'g'] }

/-- Witness for C10 at a concrete input: one stored decision for `行`, a
response item addressing it with the wrong character `好` and a non-empty
recommendation. -/
theorem c10_double_check_mismatch_witness :
    Warning.dc_char_mismatch 0 0 0 '行' ['好'] ∈
      (_apply_llm_double_check (some (.items [c10item]))
        [ovTok] [((0, 1), [ovDec0])]
        [reviewItemOf ovTok ovDec0]).1.warnings ∧
    ∃ decs' d',
      lookupDecs (_apply_llm_double_check (some (.items [c10item]))
          [ovTok] [((0, 1), [ovDec0])]
          [reviewItemOf ovTok ovDec0]).2 (ovTok.start, ovTok.stop) =
        some decs' ∧
      decs'.get? 0 = some d' ∧
      (c10item.needs_user = true →
        d'.needs_review = true ∧
        d'.notes = ovDec0.notes ++ [Note.llm_double_check_needs_user]) ∧
      (∀ r, c10item.needs_user = false → c10item.recommended = some r →
        r ≠ [] →
        d'.chosen = normalize_pinyin r ∧
        d'.resolved_by = ResolvedBy.llm_double_check ∧
        d'.needs_review = false) :=
  c10_double_check_mismatch [ovTok] [((0, 1), [ovDec0])]
    [reviewItemOf ovTok ovDec0] c10item
    0 0 0 ovTok [ovDec0] ovDec0 ['好'] rfl rfl rfl rfl
    (by with_unfolding_all rfl) (by with_unfolding_all rfl) (by decide)
    (by decide) rfl rfl (by decide) (by decide)

end PinyinModel
